import Mathlib

/-! # Samplefs: mount options, case-insensitive names, node creation, unmount

A shallow embedding of `day11/super.c`, `day11/inode.c` and `day3/super.c`.

Conventions of the embedding.

* A C string is the list of its bytes before the terminating NUL, each byte a
  `Nat` below 256.  A `char *` that may be `NULL` is an `Option`.
* The `printk` calls of the option parser append to an explicit log; the
  `KERN_INFO` traces of the other functions are left out.
* Kernel library routines the files call (`strsep`, `strchr`, `strncasecmp`,
  `simple_strtoul`, `nls_tolower`, `nls_strnicmp`, `new_inode`, `inc_nlink`,
  `init_special_inode`, the dcache name hash) are written out from the kernel
  sources they come from (`lib/string.c`, `lib/ctype.c`, `lib/kstrtox.c`,
  `lib/vsprintf.c`, `include/linux/nls.h`, `fs/inode.c`,
  `include/linux/stringhash.h`).
* `samplefs.h` is not among the sources: the value of `SFS_MNT_CASE` is a
  parameter of every definition that uses it.
-/

namespace Samplefs

/-! ## C strings and `lib/ctype.c` -/

/-- Bytes of an ASCII string literal. -/
def cstr (s : String) : List Nat := s.toList.map Char.toNat

/-- Kernel `isupper`: the `_U` entries of `_ctype[]` (ASCII `A`-`Z` and the
Latin-1 capitals 192-214, 216-222). -/
def isupper (c : Nat) : Prop :=
  (65 ≤ c ∧ c ≤ 90) ∨ (192 ≤ c ∧ c ≤ 214) ∨ (216 ≤ c ∧ c ≤ 222)

instance (c : Nat) : Decidable (isupper c) := by unfold isupper; infer_instance

/-- Kernel `tolower` (`__tolower`): `if (isupper(c)) c -= 'A'-'a';`. -/
def tolower (c : Nat) : Nat := if isupper c then c + 32 else c

/-- Kernel `isxdigit`: the `_D|_X` entries of `_ctype[]`. -/
def isxdigit (c : Nat) : Prop :=
  (48 ≤ c ∧ c ≤ 57) ∨ (65 ≤ c ∧ c ≤ 70) ∨ (97 ≤ c ∧ c ≤ 102)

instance (c : Nat) : Decidable (isxdigit c) := by unfold isxdigit; infer_instance

/-- Kernel `_tolower`: `c | 0x20`. -/
def _tolower (c : Nat) : Nat := c ||| 0x20

/-! ## `lib/string.c` -/

/-- Cut a string at the first occurrence of the byte `d`: the bytes before it,
and the bytes after it (`none` when `d` does not occur). -/
def cut_at (d : Nat) : List Nat → List Nat × Option (List Nat)
  | [] => ([], none)
  | c :: cs =>
    if c = d then ([], some cs)
    else ((c :: (cut_at d cs).1), (cut_at d cs).2)

/-- The call `strsep(&options, ",")` on a non-NULL `options`: the returned token
(NUL written over the first comma) and the new value of `options` (`none` is
`NULL`: no comma was found). -/
def strsep (options : List Nat) : List Nat × Option (List Nat) := cut_at 44 options

/-- The statements `if ((value = strchr(data, '=')) != NULL) *value++ = '\0';`:
the string `data` now denotes, and `value`. -/
def strchr_eq (data : List Nat) : List Nat × Option (List Nat) := cut_at 61 data

/-- Kernel `strncasecmp`.  The `do ... while (--len)` loop reads one byte of
each string per round (`0` at the end of a string), leaves on a NUL or on a
difference of the lowered bytes with `c1 - c2`, and returns `0` when `len`
rounds found no difference. -/
def strncasecmp : List Nat → List Nat → Nat → Int
  | _, _, 0 => 0
  | s1, s2, len + 1 =>
    let c1 := s1.headD 0
    let c2 := s2.headD 0
    if c1 = 0 ∨ c2 = 0 then (c1 : Int) - (c2 : Int)
    else if c1 = c2 then strncasecmp s1.tail s2.tail len
    else if tolower c1 ≠ tolower c2 then (tolower c1 : Int) - (tolower c2 : Int)
    else strncasecmp s1.tail s2.tail len

/-! ## `lib/kstrtox.c`, `lib/vsprintf.c` -/

/-- Kernel `_parse_integer_fixup_radix` called with `*base == 0`: the base it
chooses and the string after the `0x` it skips. -/
def _parse_integer_fixup_radix (s : List Nat) : List Nat × Nat :=
  let base : Nat :=
    if s.headD 0 = 48 then
      (if _tolower (s.getD 1 0) = 120 ∧ isxdigit (s.getD 2 0) then 16 else 8)
    else 10
  if base = 16 ∧ s.headD 0 = 48 ∧ _tolower (s.getD 1 0) = 120 then (s.drop 2, base)
  else (s, base)

/-- Kernel `_parse_integer`: accumulate digits below `base` in an
`unsigned long long` (arithmetic modulo `2^64`; the overflow flag only marks
the character count, which `simple_strtoull` masks off), stop at the first
other byte. -/
def _parse_integer (base : Nat) : List Nat → Nat → Nat
  | [], res => res
  | c :: s, res =>
    let lc := c ||| 0x20
    if 48 ≤ c ∧ c ≤ 57 then
      (if base ≤ c - 48 then res
       else _parse_integer base s ((res * base + (c - 48)) % 2 ^ 64))
    else if 97 ≤ lc ∧ lc ≤ 102 then
      (if base ≤ lc - 97 + 10 then res
       else _parse_integer base s ((res * base + (lc - 97 + 10)) % 2 ^ 64))
    else res

/-- Kernel `simple_strtoul(cp, &endp, 0)` on a 64-bit kernel; the end pointer
is not modelled, the caller never reads it. -/
def simple_strtoul (cp : List Nat) : Nat :=
  _parse_integer (_parse_integer_fixup_radix cp).2 (_parse_integer_fixup_radix cp).1 0

/-- Conversion of an `unsigned long` to `int` (`size = simple_strtoul(...)`):
the low 32 bits read in two's complement. -/
def ulong_to_int (x : Nat) : Int :=
  if x % 2 ^ 32 < 2 ^ 31 then ((x % 2 ^ 32 : Nat) : Int)
  else ((x % 2 ^ 32 : Nat) : Int) - 2 ^ 32

/-! ## `include/linux/nls.h` -/

/-- The part of `struct nls_table` the file system reads: the 256-entry
array `charset2lower`. -/
structure nls_table where
  charset2lower : List Nat
  deriving DecidableEq

/-- Kernel `nls_tolower`: `nc = t->charset2lower[c]; return nc ? nc : c;`. -/
def nls_tolower (t : nls_table) (c : Nat) : Nat :=
  if t.charset2lower.getD c 0 ≠ 0 then t.charset2lower.getD c 0 else c

/-- Kernel `nls_strnicmp`: `while (len--) if (nls_tolower(t, *s1++) !=
nls_tolower(t, *s2++)) return 1; return 0;`. -/
def nls_strnicmp (t : nls_table) : List Nat → List Nat → Nat → Int
  | _, _, 0 => 0
  | s1, s2, len + 1 =>
    if nls_tolower t (s1.headD 0) ≠ nls_tolower t (s2.headD 0) then 1
    else nls_strnicmp t s1.tail s2.tail len

/-! ## `super.c`: mount options -/

/-- The fields of `struct samplefs_sb_info` that `super.c` and `inode.c` use. -/
structure samplefs_sb_info where
  rsize : Nat
  wsize : Nat
  flags : Nat
  local_nls : Option nls_table
  deriving DecidableEq

/-- The `printk` calls of `samplefs_parse_mount_options`, with their
arguments. -/
inductive printk_msg where
  /-- Message `KERN_INFO "samplefs: parsing mount options %s\n"`. -/
  | parsing (options : List Nat)
  /-- Message `KERN_INFO "samplefs: rsize %d\n"`. -/
  | rsize (size : Int)
  /-- Message `KERN_INFO "samplefs: wsize %d\n"`. -/
  | wsize (size : Int)
  /-- Message `KERN_INFO "samplefs: ignore case\n"`. -/
  | ignore_case
  /-- Message `KERN_WARNING "samplefs: bad mount option %s\n"`. -/
  | bad_option (data : List Nat)
  deriving DecidableEq

/-- Whether a message is logged at `KERN_WARNING`. -/
def printk_msg.is_warning : printk_msg → Bool
  | .bad_option _ => true
  | _ => false

/-- Number of `KERN_WARNING` messages in a log. -/
def warnings (log : List printk_msg) : Nat := log.countP printk_msg.is_warning

/-- What `samplefs_parse_mount_options` works on: the superblock info and the
kernel log. -/
structure parse_state where
  sb : samplefs_sb_info
  log : List printk_msg
  deriving DecidableEq

/-- The `rsize` branch (day11 lines 95-102, day3 lines 89-95). -/
def set_rsize (value : Option (List Nat)) (st : parse_state) : parse_state :=
  match value with
  | none => st
  | some v =>
    if v ≠ [] then
      (if 0 < ulong_to_int (simple_strtoul v) then
        { sb := { st.sb with rsize := (ulong_to_int (simple_strtoul v)).toNat },
          log := st.log ++ [printk_msg.rsize (ulong_to_int (simple_strtoul v))] }
       else st)
    else st

/-- The `wsize` branch (day11 lines 104-111, day3 lines 97-103). -/
def set_wsize (value : Option (List Nat)) (st : parse_state) : parse_state :=
  match value with
  | none => st
  | some v =>
    if v ≠ [] then
      (if 0 < ulong_to_int (simple_strtoul v) then
        { sb := { st.sb with wsize := (ulong_to_int (simple_strtoul v)).toNat },
          log := st.log ++ [printk_msg.wsize (ulong_to_int (simple_strtoul v))] }
       else st)
    else st

/-- Body of the `while` loop of day11 `samplefs_parse_mount_options` for a
non-empty token (lines 91-120). -/
def parse_option (SFS_MNT_CASE : Nat) (token : List Nat) (st : parse_state) : parse_state :=
  let data := (strchr_eq token).1
  let value := (strchr_eq token).2
  if strncasecmp data (cstr "rsize") 5 = 0 then set_rsize value st
  else if strncasecmp data (cstr "wsize") 5 = 0 then set_wsize value st
  else if strncasecmp data (cstr "nocase") 6 = 0 ∨
      strncasecmp data (cstr "ignorecase") 10 = 0 then
    { sb := { st.sb with flags := st.sb.flags ||| SFS_MNT_CASE },
      log := st.log ++ [printk_msg.ignore_case] }
  else { st with log := st.log ++ [printk_msg.bad_option data] }

/-- The `while ((data = strsep(&options, ",")) != NULL)` loop, the same text in
day3 and day11 but for the body; `body` is the loop body on a non-empty token
(`if (!*data) continue;` skips the empty ones).  Each round consumes one unit
of `fuel`; `none` is returned when the fuel runs out before `strsep` returns
`NULL`. -/
def parse_loop (body : List Nat → parse_state → parse_state) :
    Nat → Option (List Nat) → parse_state → Option parse_state
  | _, none, st => some st
  | 0, some _, _ => none
  | fuel + 1, some options, st =>
    if (strsep options).1 = [] then parse_loop body fuel (strsep options).2 st
    else parse_loop body fuel (strsep options).2 (body (strsep options).1 st)

/-- Function `samplefs_parse_mount_options` of `day11/super.c`.  The loop is given one
round per byte of `options` plus one. -/
def samplefs_parse_mount_options (SFS_MNT_CASE : Nat) (options : Option (List Nat))
    (st : parse_state) : Option parse_state :=
  match options with
  | none => some st
  | some o =>
    parse_loop (parse_option SFS_MNT_CASE) (o.length + 1) (some o)
      { st with log := st.log ++ [printk_msg.parsing o] }

/-- Body of the `while` loop of day3 `samplefs_parse_mount_options` for a
non-empty token (lines 85-106): no `nocase` / `ignorecase` branch. -/
def Day3.parse_option (token : List Nat) (st : parse_state) : parse_state :=
  let data := (strchr_eq token).1
  let value := (strchr_eq token).2
  if strncasecmp data (cstr "rsize") 5 = 0 then set_rsize value st
  else if strncasecmp data (cstr "wsize") 5 = 0 then set_wsize value st
  else { st with log := st.log ++ [printk_msg.bad_option data] }

/-- Function `samplefs_parse_mount_options` of `day3/super.c`. -/
def Day3.samplefs_parse_mount_options (options : Option (List Nat))
    (st : parse_state) : Option parse_state :=
  match options with
  | none => some st
  | some o =>
    parse_loop Day3.parse_option (o.length + 1) (some o)
      { st with log := st.log ++ [printk_msg.parsing o] }

/-- A `kzalloc`ed `samplefs_sb_info` whose code table has been loaded. -/
def zeroed (nls : Option nls_table) : samplefs_sb_info :=
  { rsize := 0, wsize := 0, flags := 0, local_nls := nls }

/-! ## `super.c`: case-insensitive dentry operations -/

/-- Kernel `struct qstr`: a name with its length and its hash. -/
structure qstr where
  hash : Nat
  len : Nat
  name : List Nat
  deriving DecidableEq

/-- The dcache hash primitives of `include/linux/stringhash.h`, which
`sfs_ci_hash` calls: `init_name_hash(salt)`, `partial_name_hash(c, prevhash)`
and `end_name_hash(hash)`. -/
structure name_hash where
  init_name_hash : Nat → Nat
  partial_name_hash : Nat → Nat → Nat
  end_name_hash : Nat → Nat

/-- The primitives as a 64-bit kernel defines them: the salt itself,
`(prevhash + (c << 4) + (c >> 4)) * 11` in an `unsigned long`, and
`hash_long(hash, 32)`, the high 32 bits of the product with
`GOLDEN_RATIO_64`. -/
def linux_name_hash : name_hash where
  init_name_hash := fun salt => salt
  partial_name_hash := fun c prevhash => ((prevhash + (c <<< 4) + (c >>> 4)) * 11) % 2 ^ 64
  end_name_hash := fun hash => ((hash * 0x61C8864680B583EB) % 2 ^ 64) >>> 32

/-- Function `sfs_ci_hash` of `day11/super.c`.  `salt` is the `dentry` pointer handed to
`init_name_hash`, `codepage` is `SFS_SB(dentry->d_inode->i_sb)->local_nls`; the
result is the return value and `*q` after the call. -/
def sfs_ci_hash (H : name_hash) (salt : Nat) (codepage : nls_table) (q : qstr) : Int × qstr :=
  let hash := (List.range q.len).foldl
    (fun hash i => H.partial_name_hash (nls_tolower codepage (q.name.getD i 0)) hash)
    (H.init_name_hash salt)
  (0, { q with hash := H.end_name_hash hash })

/-- Function `sfs_ci_compare` of `day11/super.c`; `codepage` is
`SFS_SB(dentry->d_inode->i_sb)->local_nls`. -/
def sfs_ci_compare (codepage : nls_table) (len : Nat) (str : List Nat) (name : qstr) : Int :=
  if len = name.len ∧ nls_strnicmp codepage str name.name len = 0 then 0 else 1

/-- The ordinary dcache hash of a byte string: the primitives run over the
bytes as they are. -/
def hash_of_bytes (H : name_hash) (salt : Nat) (bytes : List Nat) : Nat :=
  H.end_name_hash (bytes.foldl (fun hash c => H.partial_name_hash c hash) (H.init_name_hash salt))

/-- A code table folds the ASCII letters to lower case. -/
def folds_ascii (t : nls_table) : Prop :=
  ∀ c, 65 ≤ c ∧ c ≤ 90 → nls_tolower t c = c + 32 ∧ nls_tolower t (c + 32) = c + 32

/-- A code table whose `charset2lower` maps `A`-`Z` to `a`-`z` and holds 0
(no lower-case form) everywhere else. -/
def ascii_table : nls_table :=
  { charset2lower := (List.range 256).map (fun c => if 65 ≤ c ∧ c ≤ 90 then c + 32 else 0) }

/-! ## `super.c`: unmount -/

/-- The calls by which `samplefs_put_super` gives a resource back. -/
inductive release where
  /-- Call `unload_nls(nls)`. -/
  | unload_nls (nls : Option nls_table)
  /-- Call `kfree(sfs_sb)`. -/
  | kfree (sfs_sb : samplefs_sb_info)
  deriving DecidableEq

/-- The superblock as `samplefs_put_super` sees it: the slot `s_fs_info` and
the record of the release calls made so far. -/
structure super_block where
  s_fs_info : Option samplefs_sb_info
  released : List release
  deriving DecidableEq

/-- Function `samplefs_put_super`, the same text in `day3/super.c` and `day11/super.c`.
The function does not write `sb->s_fs_info`. -/
def samplefs_put_super (sb : super_block) : super_block :=
  match sb.s_fs_info with
  | none => sb
  | some sfs_sb =>
    { sb with released := sb.released ++
        [release.unload_nls sfs_sb.local_nls, release.kfree sfs_sb] }

/-! ## File modes and `fs/inode.c` -/

def S_IFMT : Nat := 0o170000

def S_IFSOCK : Nat := 0o140000

def S_IFLNK : Nat := 0o120000

def S_IFREG : Nat := 0o100000

def S_IFBLK : Nat := 0o060000

def S_IFDIR : Nat := 0o040000

def S_IFCHR : Nat := 0o020000

def S_IFIFO : Nat := 0o010000

def S_ISGID : Nat := 0o002000

def S_IRWXUGO : Nat := 0o777

def ENOSPC : Int := 28

/-- Macro `S_ISDIR(m)`. -/
def S_ISDIR (m : Nat) : Prop := m &&& S_IFMT = S_IFDIR

instance (m : Nat) : Decidable (S_ISDIR m) := by unfold S_ISDIR; infer_instance

/-- The inode operation tables an inode may point to. -/
inductive inode_ops where
  | empty_iops
  | sfs_file_inode_ops
  | sfs_dir_inode_ops
  | page_symlink_inode_operations
  deriving DecidableEq

/-- The file operation tables an inode may point to. -/
inductive file_ops where
  | no_open_fops
  | sfs_file_operations
  | simple_dir_operations
  | def_chr_fops
  | def_blk_fops
  | pipefifo_fops
  deriving DecidableEq

/-- The fields of `struct inode` the file system touches.  Times are opaque
clock readings; `i_mode` is a `umode_t` (16 bits), `i_nlink` an
`unsigned int`; `sfs_aops` records `i_mapping->a_ops = &sfs_aops`, `i_data`
the symlink body `page_symlink` stores. -/
structure inode where
  i_mode : Nat
  i_uid : Nat
  i_gid : Nat
  i_nlink : Nat
  i_rdev : Nat
  i_size : Nat
  i_blocks : Nat
  i_atime : Nat
  i_mtime : Nat
  i_ctime : Nat
  i_op : inode_ops
  i_fop : file_ops
  sfs_aops : Bool
  i_data : List Nat
  deriving DecidableEq

/-- The fields of `struct dentry` the file system touches. -/
structure dentry where
  d_name : List Nat
  d_inode : Option inode
  d_count : Nat
  deriving DecidableEq

/-- What the kernel supplies during one creation call: whether `new_inode`
finds memory, the caller's `current_fsuid()` and `current_fsgid()`, the
readings of `current_time` in `samplefs_get_inode` and in the caller, and the
return value of `page_symlink`. -/
structure kernel where
  new_inode_ok : Bool
  fsuid : Nat
  fsgid : Nat
  time_create : Nat
  time_dir : Nat
  page_symlink_error : Int
  deriving DecidableEq

/-- Kernel `new_inode(sb)`: `NULL`, or a fresh inode as `inode_init_always`
leaves it (link count 1, everything else cleared). -/
def new_inode (k : kernel) : Option inode :=
  if k.new_inode_ok then
    some { i_mode := 0, i_uid := 0, i_gid := 0, i_nlink := 1, i_rdev := 0, i_size := 0,
           i_blocks := 0, i_atime := 0, i_mtime := 0, i_ctime := 0,
           i_op := inode_ops.empty_iops, i_fop := file_ops.no_open_fops, sfs_aops := false,
           i_data := [] }
  else none

/-- Kernel `inc_nlink`: `inode->__i_nlink++` on an `unsigned int`. -/
def inc_nlink (i : inode) : inode := { i with i_nlink := (i.i_nlink + 1) % 2 ^ 32 }

/-- Kernel `init_special_inode(inode, mode, rdev)`. -/
def init_special_inode (i : inode) (mode rdev : Nat) : inode :=
  if (mode % 2 ^ 16) &&& S_IFMT = S_IFCHR then
    { i with i_mode := mode % 2 ^ 16, i_fop := file_ops.def_chr_fops, i_rdev := rdev }
  else if (mode % 2 ^ 16) &&& S_IFMT = S_IFBLK then
    { i with i_mode := mode % 2 ^ 16, i_fop := file_ops.def_blk_fops, i_rdev := rdev }
  else if (mode % 2 ^ 16) &&& S_IFMT = S_IFIFO then
    { i with i_mode := mode % 2 ^ 16, i_fop := file_ops.pipefifo_fops }
  else { i with i_mode := mode % 2 ^ 16 }

/-! ## `super.c`: `samplefs_get_inode` -/

/-- Function `samplefs_get_inode` of `day11/super.c`; `none` is `NULL`.  The `int mode`
is stored in the 16-bit `i_mode`. -/
def samplefs_get_inode (k : kernel) (mode dev : Nat) : Option inode :=
  match new_inode k with
  | none => none
  | some inode =>
    let inode := { inode with
      i_mode := mode % 2 ^ 16, i_uid := k.fsuid, i_gid := k.fsgid, i_blocks := 0,
      i_atime := k.time_create, i_mtime := k.time_create, i_ctime := k.time_create,
      sfs_aops := true }
    if mode &&& S_IFMT = S_IFREG then
      some { inode with i_op := inode_ops.sfs_file_inode_ops,
                        i_fop := file_ops.sfs_file_operations }
    else if mode &&& S_IFMT = S_IFDIR then
      some (inc_nlink { inode with i_op := inode_ops.sfs_dir_inode_ops,
                                   i_fop := file_ops.simple_dir_operations })
    else if mode &&& S_IFMT = S_IFLNK then
      some { inode with i_op := inode_ops.page_symlink_inode_operations }
    else some (init_special_inode inode mode dev)

/-! ## `inode.c`: creation -/

/-- What a creation call leaves behind: its return value, the parent
directory and the dentry. -/
structure creation where
  error : Int
  dir : inode
  dentry : dentry
  deriving DecidableEq

/-- Function `sfs_mknod` of `day11/inode.c`.  `error` is initialised to `-ENOSPC` and
returned; no statement of the function assigns it. -/
def sfs_mknod (k : kernel) (dir : inode) (dentry : dentry) (mode dev : Nat) : creation :=
  let error : Int := -ENOSPC
  match samplefs_get_inode k mode dev with
  | none => { error := error, dir := dir, dentry := dentry }
  | some inode =>
    let inode :=
      if dir.i_mode &&& S_ISGID ≠ 0 then
        (if S_ISDIR mode then
          { inode with i_gid := dir.i_gid, i_mode := inode.i_mode ||| S_ISGID }
         else { inode with i_gid := dir.i_gid })
      else inode
    { error := error,
      dir := { dir with i_mtime := k.time_dir, i_ctime := k.time_dir,
                        i_size := dir.i_size + 0x20 },
      dentry := { dentry with d_inode := some inode, d_count := dentry.d_count + 1 } }

/-- Function `sfs_mkdir` of `day11/inode.c`. -/
def sfs_mkdir (k : kernel) (dir : inode) (dentry : dentry) (mode : Nat) : creation :=
  let r := sfs_mknod k dir dentry (mode ||| S_IFDIR) 0
  if r.error = 0 then { r with dir := inc_nlink r.dir } else r

/-- Function `sfs_create` of `day11/inode.c`. -/
def sfs_create (k : kernel) (dir : inode) (dentry : dentry) (mode : Nat) (_excl : Bool) :
    creation :=
  sfs_mknod k dir dentry (mode ||| S_IFREG) 0

/-- Function `sfs_symlink` of `day11/inode.c`.  On a `page_symlink` failure the new
inode is dropped (`iput`). -/
def sfs_symlink (k : kernel) (dir : inode) (dentry : dentry) (symname : List Nat) : creation :=
  match samplefs_get_inode k (S_IFLNK ||| S_IRWXUGO) 0 with
  | none => { error := -ENOSPC, dir := dir, dentry := dentry }
  | some inode =>
    if k.page_symlink_error = 0 then
      let inode := { inode with i_data := symname ++ [0] }
      let inode := if dir.i_mode &&& S_ISGID ≠ 0 then { inode with i_gid := dir.i_gid } else inode
      { error := k.page_symlink_error,
        dir := { dir with i_mtime := k.time_dir, i_ctime := k.time_dir },
        dentry := { dentry with d_inode := some inode, d_count := dentry.d_count + 1 } }
    else { error := k.page_symlink_error, dir := dir, dentry := dentry }

/-! ## Reading the option string the way the claims describe it -/

/-- ASCII lower-casing of one byte. -/
def ascii_lower (c : Nat) : Nat := if 65 ≤ c ∧ c ≤ 90 then c + 32 else c

/-- The string `key` begins with `name`, ASCII case ignored. -/
def begins_ci (name key : List Nat) : Prop :=
  (key.take name.length).map ascii_lower = name.map ascii_lower

instance (name key : List Nat) : Decidable (begins_ci name key) := by
  unfold begins_ci; infer_instance

/-- The decimal literal of `N`: its base-10 digits, most significant first, as
ASCII bytes. -/
def decimal (N : Nat) : List Nat := ((Nat.digits 10 N).reverse).map (· + 48)

/-- Join tokens with commas. -/
def join_comma : List (List Nat) → List Nat
  | [] => []
  | [t] => t
  | t :: t2 :: ts => t ++ 44 :: join_comma (t2 :: ts)

/-- One round of the loop on the token `t`: an empty token is skipped. -/
def loop_round (body : List Nat → parse_state → parse_state) (st : parse_state)
    (t : List Nat) : parse_state :=
  if t = [] then st else body t st

/-- The key of a token: its text before the first `=`. -/
def key_of (t : List Nat) : List Nat := t.takeWhile (· ≠ 61)

/-- The key does not begin, ASCII case ignored, with any of `rsize`, `wsize`,
`nocase`, `ignorecase`. -/
def unknown_key (k : List Nat) : Prop :=
  ¬ begins_ci (cstr "rsize") k ∧ ¬ begins_ci (cstr "wsize") k ∧
  ¬ begins_ci (cstr "nocase") k ∧ ¬ begins_ci (cstr "ignorecase") k

instance (k : List Nat) : Decidable (unknown_key k) := by unfold unknown_key; infer_instance

/-- The key begins, ASCII case ignored, with neither `rsize` nor `wsize`: the
keys the day3 parser does not know (it has no `nocase` / `ignorecase`). -/
def day3_unknown_key (k : List Nat) : Prop :=
  ¬ begins_ci (cstr "rsize") k ∧ ¬ begins_ci (cstr "wsize") k

instance (k : List Nat) : Decidable (day3_unknown_key k) := by
  unfold day3_unknown_key; infer_instance

/-- The kinds of token of a well-formed option string. -/
inductive opt_token where
  /-- The token `rsize=N`, `N` written in decimal. -/
  | rsize (N : Nat)
  /-- The token `wsize=N`, `N` written in decimal. -/
  | wsize (N : Nat)
  /-- The token `nocase`. -/
  | nocase
  /-- The token `ignorecase`. -/
  | ignorecase
  /-- Any other text `t`. -/
  | unknown (t : List Nat)
  /-- The empty token (two commas in a row, a leading or a trailing comma). -/
  | empty
  deriving DecidableEq

/-- Text of a token. -/
def opt_token.text : opt_token → List Nat
  | .rsize N => cstr "rsize=" ++ decimal N
  | .wsize N => cstr "wsize=" ++ decimal N
  | .nocase => cstr "nocase"
  | .ignorecase => cstr "ignorecase"
  | .unknown t => t
  | .empty => []

/-- Side conditions on a token: a size is a positive `int`, an unknown token
is a non-empty comma-free text whose key begins with none of the four names. -/
def opt_token.admissible : opt_token → Prop
  | .rsize N => 1 ≤ N ∧ N < 2 ^ 31
  | .wsize N => 1 ≤ N ∧ N < 2 ^ 31
  | .unknown t => t ≠ [] ∧ 44 ∉ t ∧ unknown_key (key_of t)
  | _ => True

/-- The option string made of the given tokens. -/
def option_string (toks : List opt_token) : List Nat :=
  join_comma (toks.map opt_token.text)

/-- Value of an `rsize=N` token. -/
def opt_token.rsize_value : opt_token → Option Nat
  | .rsize N => some N
  | _ => none

/-- Value of a `wsize=N` token. -/
def opt_token.wsize_value : opt_token → Option Nat
  | .wsize N => some N
  | _ => none

/-- Whether a token is `nocase` or `ignorecase`. -/
def opt_token.is_case : opt_token → Bool
  | .nocase => true
  | .ignorecase => true
  | _ => false

/-- Whether a token is an unknown one. -/
def opt_token.is_unknown : opt_token → Bool
  | .unknown _ => true
  | _ => false

/-- The case flag of a superblock info is set (the test of `sfs_lookup`:
`sfs_sb->flags & SFS_MNT_CASE`). -/
def case_mode (SFS_MNT_CASE : Nat) (sb : samplefs_sb_info) : Prop :=
  sb.flags &&& SFS_MNT_CASE ≠ 0

instance (M : Nat) (sb : samplefs_sb_info) : Decidable (case_mode M sb) := by
  unfold case_mode; infer_instance

/-- Effect of one round of the loop on an admissible token. -/
def token_effect (SFS_MNT_CASE : Nat) (st : parse_state) : opt_token → parse_state
  | .rsize N => { sb := { st.sb with rsize := N }, log := st.log ++ [printk_msg.rsize N] }
  | .wsize N => { sb := { st.sb with wsize := N }, log := st.log ++ [printk_msg.wsize N] }
  | .nocase => { sb := { st.sb with flags := st.sb.flags ||| SFS_MNT_CASE },
                 log := st.log ++ [printk_msg.ignore_case] }
  | .ignorecase => { sb := { st.sb with flags := st.sb.flags ||| SFS_MNT_CASE },
                     log := st.log ++ [printk_msg.ignore_case] }
  | .unknown t => { st with log := st.log ++ [printk_msg.bad_option (key_of t)] }
  | .empty => st

/-- The values claim C5 keeps: the empty value, a run of zeros, and a value
whose first byte is not a decimal digit (a sign, a letter, a blank). -/
def ignored_value (V : List Nat) : Prop :=
  V = [] ∨ (∀ c ∈ V, c = 48) ∨ ¬ (48 ≤ V.headD 0 ∧ V.headD 0 ≤ 57)

instance (V : List Nat) : Decidable (ignored_value V) := by
  unfold ignored_value; infer_instance

/-! # Theorems -/

theorem cut_at_of_not_mem (d : Nat) : ∀ (t : List Nat), d ∉ t → cut_at d t = (t, none)
  | [], _ => rfl
  | c :: cs, h => by
    have hc : c ≠ d := fun e => h (by simp [e])
    have hcs : d ∉ cs := fun e => h (by simp [e])
    simp [cut_at, hc, cut_at_of_not_mem d cs hcs]

theorem cut_at_append (d : Nat) (rest : List Nat) :
    ∀ (t : List Nat), d ∉ t → cut_at d (t ++ d :: rest) = (t, some rest)
  | [], _ => by simp [cut_at]
  | c :: cs, h => by
    have hc : c ≠ d := fun e => h (by simp [e])
    have hcs : d ∉ cs := fun e => h (by simp [e])
    simp [cut_at, hc, cut_at_append d rest cs hcs]

theorem tolower_ascii (c p : Nat) (hp : 97 ≤ p ∧ p ≤ 122) :
    tolower c = p ↔ ascii_lower c = p := by
  unfold tolower ascii_lower isupper
  split_ifs <;> omega

theorem strncasecmp_eq_zero_iff :
    ∀ (name key : List Nat), (∀ p ∈ name, 97 ≤ p ∧ p ≤ 122) →
      (strncasecmp key name name.length = 0 ↔ begins_ci name key)
  | [], key, _ => by simp [strncasecmp, begins_ci]
  | p :: ps, [], h => by
    have hp := h p (by simp)
    simp [strncasecmp, begins_ci]
    omega
  | p :: ps, c :: cs, h => by
    have hp := h p (by simp)
    have ih := strncasecmp_eq_zero_iff ps cs (fun q hq => h q (by simp [hq]))
    have hlow : tolower p = p := by unfold tolower isupper; split_ifs <;> omega
    have hal : ascii_lower p = p := by unfold ascii_lower; split_ifs <;> omega
    have key1 := tolower_ascii c p hp
    simp only [List.length_cons, strncasecmp, List.headD_cons, List.tail_cons, begins_ci,
      List.take_succ_cons, List.map_cons, List.cons.injEq, hal, hlow]
    unfold begins_ci at ih
    by_cases h0 : c = 0
    · subst h0
      have : ascii_lower 0 = 0 := by decide
      simp [this]; omega
    · by_cases hcp : c = p
      · subst hcp
        have : ¬ (c = 0 ∨ c = 0) := by omega
        rw [if_neg this, if_pos rfl, ih]
        exact ⟨fun h => ⟨hal, h⟩, fun h => h.2⟩
      · have h1 : ¬ (c = 0 ∨ p = 0) := by omega
        rw [if_neg h1, if_neg hcp]
        by_cases hl : tolower c = p
        · rw [if_neg (not_not.mpr hl), ih]
          exact ⟨fun h => ⟨key1.mp hl, h⟩, fun h => h.2⟩
        · have hne : ascii_lower c ≠ p := fun e => hl (key1.mpr e)
          rw [if_pos hl]
          constructor
          · intro h; exact absurd (by omega) hl
          · intro h; exact absurd h.1 hne

theorem parse_integer_digits (ds : List Nat) (h : ∀ d ∈ ds, d < 10) :
    ∀ res, _parse_integer 10 (ds.map (· + 48)) res
      = ds.foldl (fun a d => (a * 10 + d) % 2 ^ 64) res := by
  induction ds with
  | nil => intro res; rfl
  | cons d ds ih =>
    intro res
    have hd : d < 10 := h d (by simp)
    have h1 : 48 ≤ d + 48 ∧ d + 48 ≤ 57 := by omega
    have h2 : ¬ (10 ≤ d + 48 - 48) := by omega
    simp only [List.map_cons, _parse_integer, List.foldl_cons]
    rw [if_pos h1, if_neg h2, ih (fun e he => h e (by simp [he]))]
    simp

theorem foldl_mod (M : Nat) (ds : List Nat) :
    ∀ a, ds.foldl (fun a d => (a * 10 + d) % M) (a % M)
      = (ds.foldl (fun a d => a * 10 + d) a) % M := by
  induction ds with
  | nil => intro a; rfl
  | cons d ds ih =>
    intro a
    simp only [List.foldl_cons]
    have : (a % M * 10 + d) % M = (a * 10 + d) % M := by
      simp [Nat.add_mod, Nat.mul_mod]
    rw [this, ih]

theorem foldl_reverse_digits (L : List Nat) :
    L.reverse.foldl (fun a d => a * 10 + d) 0 = Nat.ofDigits 10 L := by
  induction L with
  | nil => rfl
  | cons d L ih =>
    simp only [List.reverse_cons, List.foldl_append, List.foldl_cons, List.foldl_nil, ih,
      Nat.ofDigits_cons]
    ring

theorem decimal_ne_nil (N : Nat) (hN : 1 ≤ N) : decimal N ≠ [] := by
  have : Nat.digits 10 N ≠ [] := Nat.digits_ne_nil_iff_ne_zero.mpr (by omega)
  simp [decimal, this]

theorem decimal_digit (N c : Nat) (hc : c ∈ decimal N) : 48 ≤ c ∧ c ≤ 57 := by
  simp only [decimal, List.mem_map, List.mem_reverse] at hc
  obtain ⟨d, hd, rfl⟩ := hc
  have := Nat.digits_lt_base (by norm_num : 1 < 10) hd
  omega

theorem decimal_head (N : Nat) (hN : 1 ≤ N) : (decimal N).headD 0 ≠ 48 := by
  have hl := Nat.getLast_digit_ne_zero 10 (by omega : N ≠ 0)
  have hl2 : (Nat.digits 10 N).getLast? ≠ some 0 := by
    rw [List.getLast?_eq_getLast _ (Nat.digits_ne_nil_iff_ne_zero.mpr (by omega))]
    simpa using hl
  unfold decimal
  rcases hr : (Nat.digits 10 N).reverse with _ | ⟨a, r⟩
  · simp
  · have hd : Nat.digits 10 N = r.reverse ++ [a] := by
      rw [← List.reverse_reverse (Nat.digits 10 N), hr]; simp
    rw [hd] at hl2
    simp at hl2
    simp
    exact hl2

theorem simple_strtoul_decimal (N : Nat) (hN : 1 ≤ N) :
    simple_strtoul (decimal N) = N % 2 ^ 64 := by
  have hh := decimal_head N hN
  have hfix : _parse_integer_fixup_radix (decimal N) = (decimal N, 10) := by
    unfold _parse_integer_fixup_radix
    simp only [if_neg hh]
    simp
  unfold simple_strtoul
  rw [hfix]
  show _parse_integer 10 (decimal N) 0 = _
  unfold decimal
  rw [parse_integer_digits _ (fun d hd => Nat.digits_lt_base (by norm_num) (by simpa using hd))]
  have := foldl_mod (2 ^ 64) (Nat.digits 10 N).reverse 0
  simp only [Nat.zero_mod] at this
  rw [this, foldl_reverse_digits, Nat.ofDigits_digits]

theorem ulong_to_int_small (N : Nat) (h : N < 2 ^ 31) : ulong_to_int (N % 2 ^ 64) = (N : Int) := by
  have h1 : N % 2 ^ 64 = N := Nat.mod_eq_of_lt (by omega)
  have h2 : N % 2 ^ 32 = N := Nat.mod_eq_of_lt (by omega)
  unfold ulong_to_int
  rw [h1, h2, if_pos h]

/-- The loop on a comma-joined list of comma-free tokens: with one unit of
fuel per byte plus one it returns, having run one round per token in order. -/
theorem parse_loop_tokens (body : List Nat → parse_state → parse_state) :
    ∀ (ts : List (List Nat)), (∀ t ∈ ts, 44 ∉ t) → ∀ (fuel : Nat) (st : parse_state),
      (join_comma ts).length + 1 ≤ fuel →
      parse_loop body fuel (some (join_comma ts)) st = some (ts.foldl (loop_round body) st)
  | [], _, fuel, st, hf => by
    obtain ⟨f, rfl⟩ : ∃ f, fuel = f + 1 := ⟨fuel - 1, by omega⟩
    simp [join_comma, parse_loop, strsep, cut_at]
  | [t], h, fuel, st, hf => by
    obtain ⟨f, rfl⟩ : ∃ f, fuel = f + 1 := ⟨fuel - 1, by omega⟩
    have ht : 44 ∉ t := h t (by simp)
    simp only [join_comma, parse_loop, strsep, cut_at_of_not_mem 44 t ht, List.foldl_cons,
      List.foldl_nil, loop_round]
    split_ifs <;> rfl
  | t :: t2 :: ts, h, fuel, st, hf => by
    obtain ⟨f, rfl⟩ : ∃ f, fuel = f + 1 := ⟨fuel - 1, by omega⟩
    have ht : 44 ∉ t := h t (by simp)
    have hlen : (join_comma (t2 :: ts)).length + 1 ≤ f := by
      simp only [join_comma, List.length_append, List.length_cons] at hf
      omega
    have ih := fun st =>
      parse_loop_tokens body (t2 :: ts) (fun u hu => h u (by simp [hu])) f st hlen
    simp only [join_comma, parse_loop, strsep, cut_at_append 44 _ t ht]
    rw [List.foldl_cons]
    by_cases he : t = []
    · have hr : loop_round body st t = st := by simp [loop_round, he]
      rw [if_pos he, ih, hr]
    · have hr : loop_round body st t = body t st := by simp [loop_round, he]
      rw [if_neg he, ih, hr]

/-- Day11 `samplefs_parse_mount_options` on a comma-joined list of comma-free
tokens. -/
theorem parse_tokens (M : Nat) (ts : List (List Nat)) (h : ∀ t ∈ ts, 44 ∉ t)
    (st : parse_state) :
    samplefs_parse_mount_options M (some (join_comma ts)) st
      = some (ts.foldl (loop_round (parse_option M))
          { st with log := st.log ++ [printk_msg.parsing (join_comma ts)] }) := by
  unfold samplefs_parse_mount_options
  exact parse_loop_tokens _ ts h _ _ (le_refl _)

/-- Day3 `samplefs_parse_mount_options` on a comma-joined list of comma-free
tokens. -/
theorem day3_parse_tokens (ts : List (List Nat)) (h : ∀ t ∈ ts, 44 ∉ t)
    (st : parse_state) :
    Day3.samplefs_parse_mount_options (some (join_comma ts)) st
      = some (ts.foldl (loop_round Day3.parse_option)
          { st with log := st.log ++ [printk_msg.parsing (join_comma ts)] }) := by
  unfold Day3.samplefs_parse_mount_options
  exact parse_loop_tokens _ ts h _ _ (le_refl _)

theorem cut_at_fst (d : Nat) : ∀ t : List Nat, (cut_at d t).1 = t.takeWhile (· ≠ d)
  | [] => rfl
  | c :: cs => by
    by_cases h : c = d
    · simp [cut_at, h]
    · simp [cut_at, h, cut_at_fst d cs]

theorem strchr_eq_fst (t : List Nat) : (strchr_eq t).1 = key_of t := cut_at_fst 61 t

theorem set_rsize_decimal (N : Nat) (h : 1 ≤ N ∧ N < 2 ^ 31) (st : parse_state) :
    set_rsize (some (decimal N)) st
      = { sb := { st.sb with rsize := N }, log := st.log ++ [printk_msg.rsize N] } := by
  have hv : ulong_to_int (simple_strtoul (decimal N)) = (N : Int) := by
    rw [simple_strtoul_decimal N h.1, ulong_to_int_small N h.2]
  have hpos : (0 : Int) < (N : Int) := by omega
  simp only [set_rsize, hv, if_pos (decimal_ne_nil N h.1), if_pos hpos, Int.toNat_ofNat]

theorem set_wsize_decimal (N : Nat) (h : 1 ≤ N ∧ N < 2 ^ 31) (st : parse_state) :
    set_wsize (some (decimal N)) st
      = { sb := { st.sb with wsize := N }, log := st.log ++ [printk_msg.wsize N] } := by
  have hv : ulong_to_int (simple_strtoul (decimal N)) = (N : Int) := by
    rw [simple_strtoul_decimal N h.1, ulong_to_int_small N h.2]
  have hpos : (0 : Int) < (N : Int) := by omega
  simp only [set_wsize, hv, if_pos (decimal_ne_nil N h.1), if_pos hpos, Int.toNat_ofNat]

theorem parse_option_rsize (M : Nat) (v : List Nat) (st : parse_state) :
    parse_option M (cstr "rsize=" ++ v) st = set_rsize (some v) st := by
  have h1 : cstr "rsize=" ++ v = cstr "rsize" ++ 61 :: v := by
    have : cstr "rsize=" = cstr "rsize" ++ [61] := by decide
    rw [this]; simp
  have h2 : strchr_eq (cstr "rsize" ++ 61 :: v) = (cstr "rsize", some v) :=
    cut_at_append 61 v _ (by decide)
  have h3 : strncasecmp (cstr "rsize") (cstr "rsize") 5 = 0 := by decide
  simp only [parse_option, h1, h2, h3, if_true]

theorem parse_option_wsize (M : Nat) (v : List Nat) (st : parse_state) :
    parse_option M (cstr "wsize=" ++ v) st = set_wsize (some v) st := by
  have h1 : cstr "wsize=" ++ v = cstr "wsize" ++ 61 :: v := by
    have : cstr "wsize=" = cstr "wsize" ++ [61] := by decide
    rw [this]; simp
  have h2 : strchr_eq (cstr "wsize" ++ 61 :: v) = (cstr "wsize", some v) :=
    cut_at_append 61 v _ (by decide)
  have h3 : strncasecmp (cstr "wsize") (cstr "rsize") 5 ≠ 0 := by decide
  have h4 : strncasecmp (cstr "wsize") (cstr "wsize") 5 = 0 := by decide
  simp only [parse_option, h1, h2, if_neg h3, h4, if_true]

theorem parse_option_unknown (M : Nat) (t : List Nat) (h : unknown_key (key_of t))
    (st : parse_state) :
    parse_option M t st = { st with log := st.log ++ [printk_msg.bad_option (key_of t)] } := by
  obtain ⟨h1, h2, h3, h4⟩ := h
  have e1 := strncasecmp_eq_zero_iff (cstr "rsize") (key_of t) (by decide)
  have e2 := strncasecmp_eq_zero_iff (cstr "wsize") (key_of t) (by decide)
  have e3 := strncasecmp_eq_zero_iff (cstr "nocase") (key_of t) (by decide)
  have e4 := strncasecmp_eq_zero_iff (cstr "ignorecase") (key_of t) (by decide)
  have l1 : (cstr "rsize").length = 5 := by decide
  have l2 : (cstr "wsize").length = 5 := by decide
  have l3 : (cstr "nocase").length = 6 := by decide
  have l4 : (cstr "ignorecase").length = 10 := by decide
  rw [l1] at e1; rw [l2] at e2; rw [l3] at e3; rw [l4] at e4
  have n1 := mt e1.mp h1
  have n2 := mt e2.mp h2
  have n3 := mt e3.mp h3
  have n4 := mt e4.mp h4
  have n34 : ¬ (strncasecmp (key_of t) (cstr "nocase") 6 = 0 ∨
      strncasecmp (key_of t) (cstr "ignorecase") 10 = 0) := by tauto
  simp only [parse_option, strchr_eq_fst, if_neg n1, if_neg n2, if_neg n34]

theorem loop_round_token (M : Nat) (st : parse_state) (t : opt_token) (h : t.admissible) :
    loop_round (parse_option M) st t.text = token_effect M st t := by
  cases t with
  | rsize N =>
    have hne : cstr "rsize=" ++ decimal N ≠ [] := by
      intro e; have := congrArg List.length e; simp [cstr] at this
    simp only [loop_round, opt_token.text, if_neg hne, parse_option_rsize,
      set_rsize_decimal N h, token_effect]
  | wsize N =>
    have hne : cstr "wsize=" ++ decimal N ≠ [] := by
      intro e; have := congrArg List.length e; simp [cstr] at this
    simp only [loop_round, opt_token.text, if_neg hne, parse_option_wsize,
      set_wsize_decimal N h, token_effect]
  | nocase =>
    have h0 : cstr "nocase" ≠ [] := by decide
    have h1 : strchr_eq (cstr "nocase") = (cstr "nocase", none) := by decide
    have h2 : strncasecmp (cstr "nocase") (cstr "rsize") 5 ≠ 0 := by decide
    have h3 : strncasecmp (cstr "nocase") (cstr "wsize") 5 ≠ 0 := by decide
    have h4 : strncasecmp (cstr "nocase") (cstr "nocase") 6 = 0 := by decide
    simp only [loop_round, opt_token.text, if_neg h0, parse_option, h1, if_neg h2, if_neg h3, h4,
      true_or, if_true, token_effect]
  | ignorecase =>
    have h0 : cstr "ignorecase" ≠ [] := by decide
    have h1 : strchr_eq (cstr "ignorecase") = (cstr "ignorecase", none) := by decide
    have h2 : strncasecmp (cstr "ignorecase") (cstr "rsize") 5 ≠ 0 := by decide
    have h3 : strncasecmp (cstr "ignorecase") (cstr "wsize") 5 ≠ 0 := by decide
    have h4 : strncasecmp (cstr "ignorecase") (cstr "ignorecase") 10 = 0 := by decide
    simp only [loop_round, opt_token.text, if_neg h0, parse_option, h1, if_neg h2, if_neg h3, h4,
      or_true, if_true, token_effect]
  | unknown t =>
    obtain ⟨h0, _, hk⟩ := h
    simp only [loop_round, opt_token.text, if_neg h0, parse_option_unknown M t hk, token_effect]
  | empty => simp [loop_round, opt_token.text, token_effect]

theorem text_no_comma (t : opt_token) (h : t.admissible) : 44 ∉ t.text := by
  cases t with
  | rsize N =>
    simp only [opt_token.text, List.mem_append, not_or]
    exact ⟨by decide, fun hc => by have := decimal_digit N 44 hc; omega⟩
  | wsize N =>
    simp only [opt_token.text, List.mem_append, not_or]
    exact ⟨by decide, fun hc => by have := decimal_digit N 44 hc; omega⟩
  | nocase => decide
  | ignorecase => decide
  | unknown t => exact h.2.1
  | empty => simp [opt_token.text]

/-- Day11 parser on an option string of admissible tokens: it returns, and
its result is the left-to-right fold of the tokens' effects. -/
theorem parse_option_string (M : Nat) (toks : List opt_token) (h : ∀ t ∈ toks, t.admissible)
    (st : parse_state) :
    samplefs_parse_mount_options M (some (option_string toks)) st
      = some (toks.foldl (token_effect M)
          { st with log := st.log ++ [printk_msg.parsing (option_string toks)] }) := by
  unfold option_string
  rw [parse_tokens M _ (by
    intro t ht
    obtain ⟨tok, htok, rfl⟩ := List.mem_map.mp ht
    exact text_no_comma tok (h tok htok))]
  congr 1
  generalize ({ st with log := st.log ++ [printk_msg.parsing (join_comma (toks.map opt_token.text))] } : parse_state) = s0
  induction toks generalizing s0 with
  | nil => rfl
  | cons t ts ih =>
    simp only [List.map_cons, List.foldl_cons]
    rw [loop_round_token M s0 t (h t (by simp)), ih (fun u hu => h u (by simp [hu]))]

theorem getLast?_cons_getD (a d : Nat) (l : List Nat) :
    ((a :: l).getLast?).getD d = (l.getLast?).getD a := by
  cases l with
  | nil => rfl
  | cons b l =>
    rw [List.getLast?_cons_cons, List.getLast?_eq_getLast _ (List.cons_ne_nil b l)]
    rfl

theorem lor_land_self (f m : Nat) : (f ||| m) &&& m = m := by
  apply Nat.eq_of_testBit_eq
  intro i
  simp only [Nat.testBit_and, Nat.testBit_or]
  cases f.testBit i <;> cases m.testBit i <;> rfl

theorem fold_rsize (M : Nat) (toks : List opt_token) : ∀ s : parse_state,
    (toks.foldl (token_effect M) s).sb.rsize
      = ((toks.filterMap opt_token.rsize_value).getLast?).getD s.sb.rsize := by
  induction toks with
  | nil => intro s; rfl
  | cons t ts ih =>
    intro s
    rw [List.foldl_cons, ih]
    cases t <;> simp [token_effect, opt_token.rsize_value, getLast?_cons_getD]

theorem fold_wsize (M : Nat) (toks : List opt_token) : ∀ s : parse_state,
    (toks.foldl (token_effect M) s).sb.wsize
      = ((toks.filterMap opt_token.wsize_value).getLast?).getD s.sb.wsize := by
  induction toks with
  | nil => intro s; rfl
  | cons t ts ih =>
    intro s
    rw [List.foldl_cons, ih]
    cases t <;> simp [token_effect, opt_token.wsize_value, getLast?_cons_getD]

theorem fold_flags (M : Nat) (toks : List opt_token) : ∀ s : parse_state,
    (toks.foldl (token_effect M) s).sb.flags
      = if toks.any opt_token.is_case then s.sb.flags ||| M else s.sb.flags := by
  induction toks with
  | nil => intro s; rfl
  | cons t ts ih =>
    intro s
    rw [List.foldl_cons, ih]
    cases t <;> simp [token_effect, opt_token.is_case, Nat.or_assoc]

theorem fold_nls (M : Nat) (toks : List opt_token) : ∀ s : parse_state,
    (toks.foldl (token_effect M) s).sb.local_nls = s.sb.local_nls := by
  induction toks with
  | nil => intro s; rfl
  | cons t ts ih =>
    intro s
    rw [List.foldl_cons, ih]
    cases t <;> rfl

theorem fold_warnings (M : Nat) (toks : List opt_token) : ∀ s : parse_state,
    warnings (toks.foldl (token_effect M) s).log
      = warnings s.log + toks.countP opt_token.is_unknown := by
  induction toks with
  | nil => intro s; rfl
  | cons t ts ih =>
    intro s
    rw [List.foldl_cons, ih]
    cases t <;>
      simp [token_effect, warnings, opt_token.is_unknown, printk_msg.is_warning,
        List.countP_cons]
    omega

/-- Claim C1. Day11 `samplefs_parse_mount_options` is a left-to-right fold over the
comma-separated tokens.  For every nonzero flag bit `SFS_MNT_CASE`, every
initial config and log, and every option string whose tokens are `rsize=N`,
`wsize=N` (`N` a decimal literal, `1 ≤ N < 2^31`), `nocase`, `ignorecase`, empty,
or a non-empty token whose key begins (ASCII case ignored) with none of
`rsize`, `wsize`, `nocase`, `ignorecase`: the parser returns; its result is the
fold of the tokens' effects; the final `rsize`/`wsize` is the value of the last
`rsize`/`wsize` token, or the initial value when there is none; the case flag is
set iff it was set initially or a `nocase`/`ignorecase` token occurs; the code
table is untouched; and the number of warnings grows by the number of unknown
tokens (empty tokens add nothing).  In particular
`"rsize=4096,nocase,bogus=1"` on a zeroed config gives `rsize = 4096`, `wsize`
unset, case mode on and exactly one warning, for the key `bogus`. -/
theorem parse_mount_options_fold (SFS_MNT_CASE : Nat) (hM : SFS_MNT_CASE ≠ 0) :
    (∀ (sb : samplefs_sb_info) (log : List printk_msg) (toks : List opt_token),
      (∀ t ∈ toks, t.admissible) →
      ∃ st', samplefs_parse_mount_options SFS_MNT_CASE (some (option_string toks)) ⟨sb, log⟩
          = some st' ∧
        st' = toks.foldl (token_effect SFS_MNT_CASE)
          ⟨sb, log ++ [printk_msg.parsing (option_string toks)]⟩ ∧
        st'.sb.rsize = ((toks.filterMap opt_token.rsize_value).getLast?).getD sb.rsize ∧
        st'.sb.wsize = ((toks.filterMap opt_token.wsize_value).getLast?).getD sb.wsize ∧
        (case_mode SFS_MNT_CASE st'.sb ↔
          case_mode SFS_MNT_CASE sb ∨
            ∃ t ∈ toks, t = opt_token.nocase ∨ t = opt_token.ignorecase) ∧
        st'.sb.local_nls = sb.local_nls ∧
        warnings st'.log = warnings log + toks.countP opt_token.is_unknown) ∧
    (∀ nls : Option nls_table,
      ∃ st', samplefs_parse_mount_options SFS_MNT_CASE
          (some (cstr "rsize=4096,nocase,bogus=1")) ⟨zeroed nls, []⟩ = some st' ∧
        st'.sb.rsize = 4096 ∧ st'.sb.wsize = 0 ∧ case_mode SFS_MNT_CASE st'.sb ∧
        st'.log.filter printk_msg.is_warning = [printk_msg.bad_option (cstr "bogus")]) := by
  have general : ∀ (sb : samplefs_sb_info) (log : List printk_msg) (toks : List opt_token),
      (∀ t ∈ toks, t.admissible) →
      samplefs_parse_mount_options SFS_MNT_CASE (some (option_string toks)) ⟨sb, log⟩
        = some (toks.foldl (token_effect SFS_MNT_CASE)
            ⟨sb, log ++ [printk_msg.parsing (option_string toks)]⟩) :=
    fun sb log toks h => parse_option_string SFS_MNT_CASE toks h ⟨sb, log⟩
  constructor
  · intro sb log toks h
    refine ⟨_, general sb log toks h, rfl, ?_, ?_, ?_, ?_, ?_⟩
    · rw [fold_rsize]
    · rw [fold_wsize]
    · unfold case_mode
      rw [fold_flags]
      by_cases hc : toks.any opt_token.is_case = true
      · rw [if_pos hc]
        simp only [lor_land_self]
        refine ⟨fun _ => Or.inr ?_, fun _ => hM⟩
        obtain ⟨t, ht, hcase⟩ := List.any_eq_true.mp hc
        refine ⟨t, ht, ?_⟩
        cases t <;> simp_all [opt_token.is_case]
      · rw [if_neg hc]
        refine ⟨Or.inl, fun h' => h'.elim id ?_⟩
        rintro ⟨t, ht, hcase⟩
        exact absurd (List.any_eq_true.mpr ⟨t, ht, by
          rcases hcase with rfl | rfl <;> rfl⟩) hc
    · rw [fold_nls]
    · rw [fold_warnings]
      simp [warnings, printk_msg.is_warning, List.countP_append]
  · intro nls
    have hs : option_string [opt_token.rsize 4096, opt_token.nocase,
        opt_token.unknown (cstr "bogus=1")] = cstr "rsize=4096,nocase,bogus=1" := by
      simp [option_string, join_comma, opt_token.text, decimal, cstr]
    have hadm : ∀ t ∈ [opt_token.rsize 4096, opt_token.nocase,
        opt_token.unknown (cstr "bogus=1")], t.admissible := by
      intro t ht
      simp only [List.mem_cons, List.mem_singleton, List.not_mem_nil, or_false] at ht
      rcases ht with rfl | rfl | rfl
      · exact ⟨by norm_num, by norm_num⟩
      · trivial
      · exact ⟨by decide, by decide, by decide⟩
    have := general (zeroed nls) [] _ hadm
    rw [hs] at this
    refine ⟨_, this, rfl, rfl, ?_, ?_⟩
    · simp only [case_mode, List.foldl_cons, List.foldl_nil, token_effect, zeroed]
      simpa [Nat.and_self] using hM
    · have hk : key_of (cstr "bogus=1") = cstr "bogus" := by decide
      simp [token_effect, printk_msg.is_warning, hk]

/-- Witness of `parse_mount_options_fold` with `SFS_MNT_CASE = 1`. -/
theorem parse_mount_options_fold_witness :
    (1 ≠ 0) ∧
    (∀ t ∈ [opt_token.wsize 512, opt_token.empty, opt_token.rsize 7, opt_token.unknown (cstr "x=y"),
        opt_token.ignorecase, opt_token.rsize 9], t.admissible) ∧
    (∃ st', samplefs_parse_mount_options 1
        (some (option_string [opt_token.wsize 512, opt_token.empty, opt_token.rsize 7,
          opt_token.unknown (cstr "x=y"), opt_token.ignorecase, opt_token.rsize 9]))
        ⟨zeroed none, []⟩ = some st' ∧
      st'.sb.rsize = 9 ∧ st'.sb.wsize = 512 ∧ case_mode 1 st'.sb ∧ warnings st'.log = 1) ∧
    (∃ st', samplefs_parse_mount_options 1
        (some (cstr "rsize=4096,nocase,bogus=1")) ⟨zeroed none, []⟩ = some st' ∧
      st'.sb.rsize = 4096 ∧ st'.sb.wsize = 0 ∧ case_mode 1 st'.sb ∧
      st'.log.filter printk_msg.is_warning = [printk_msg.bad_option (cstr "bogus")]) := by
  have hadm : ∀ t ∈ [opt_token.wsize 512, opt_token.empty, opt_token.rsize 7,
      opt_token.unknown (cstr "x=y"), opt_token.ignorecase, opt_token.rsize 9],
      t.admissible := by
    intro t ht
    simp only [List.mem_cons, List.mem_singleton, List.not_mem_nil, or_false] at ht
    rcases ht with rfl | rfl | rfl | rfl | rfl | rfl
    · exact ⟨by norm_num, by norm_num⟩
    · trivial
    · exact ⟨by norm_num, by norm_num⟩
    · exact ⟨by decide, by decide, by decide⟩
    · trivial
    · exact ⟨by norm_num, by norm_num⟩
  refine ⟨by decide, hadm, ?_, (parse_mount_options_fold 1 (by decide)).2 none⟩
  obtain ⟨st', h1, _, h3, h4, h5, _, h7⟩ :=
    (parse_mount_options_fold 1 (by decide)).1 (zeroed none) [] _ hadm
  refine ⟨st', h1, ?_, ?_, ?_, ?_⟩
  · rw [h3]; rfl
  · rw [h4]; rfl
  · exact h5.mpr (Or.inr ⟨opt_token.ignorecase, by simp, Or.inr rfl⟩)
  · rw [h7]; rfl

theorem parse_integer_zeros (base : Nat) (hb : 1 ≤ base) :
    ∀ V : List Nat, (∀ c ∈ V, c = 48) → _parse_integer base V 0 = 0
  | [], _ => rfl
  | c :: cs, h => by
    have hc : c = 48 := h c (by simp)
    subst hc
    have h1 : ¬ (base ≤ 48 - 48) := by omega
    simp only [_parse_integer]
    rw [if_pos (by omega), if_neg h1]
    simpa using parse_integer_zeros base hb cs (fun d hd => h d (by simp [hd]))

theorem simple_strtoul_zeros (V : List Nat) (h : ∀ c ∈ V, c = 48) : simple_strtoul V = 0 := by
  cases V with
  | nil => rfl
  | cons c cs =>
    have hc : c = 48 := h c (by simp)
    subst hc
    have hx : _tolower ((48 :: cs).getD 1 0) ≠ 120 := by
      cases cs with
      | nil => decide
      | cons d ds =>
        have hd : d = 48 := h d (by simp)
        subst hd
        show _tolower 48 ≠ 120
        decide
    have hfix : _parse_integer_fixup_radix (48 :: cs) = (48 :: cs, 8) := by
      unfold _parse_integer_fixup_radix
      simp only [List.headD_cons, hx, false_and, and_false, if_false, if_true]
    unfold simple_strtoul
    rw [hfix]
    exact parse_integer_zeros 8 (by norm_num) _ h

theorem simple_strtoul_nondigit (V : List Nat) (h : ¬ (48 ≤ V.headD 0 ∧ V.headD 0 ≤ 57)) :
    simple_strtoul V = 0 := by
  cases V with
  | nil => rfl
  | cons c cs =>
    simp only [List.headD_cons] at h
    have h48 : c ≠ 48 := by omega
    have hfix : _parse_integer_fixup_radix (c :: cs) = (c :: cs, 10) := by
      unfold _parse_integer_fixup_radix
      simp only [List.headD_cons, if_neg h48]
      simp
    unfold simple_strtoul
    rw [hfix]
    simp only [_parse_integer, if_neg h]
    split_ifs <;> first | rfl | omega

theorem set_rsize_zero (v : List Nat) (h : simple_strtoul v = 0) (st : parse_state) :
    set_rsize (some v) st = st := by
  have : ¬ (0 < ulong_to_int 0) := by decide
  simp only [set_rsize, h, if_neg this]
  split_ifs <;> rfl

theorem set_wsize_zero (v : List Nat) (h : simple_strtoul v = 0) (st : parse_state) :
    set_wsize (some v) st = st := by
  have : ¬ (0 < ulong_to_int 0) := by decide
  simp only [set_wsize, h, if_neg this]
  split_ifs <;> rfl

theorem simple_strtoul_ignored (V : List Nat) (h : ignored_value V) : simple_strtoul V = 0 := by
  rcases h with rfl | h | h
  · rfl
  · exact simple_strtoul_zeros V h
  · exact simple_strtoul_nondigit V h

/-- Day11 parser on an option string that is the single token `rsize=V`. -/
theorem parse_single_rsize (M : Nat) (V : List Nat) (hc : 44 ∉ V) (st : parse_state) :
    samplefs_parse_mount_options M (some (cstr "rsize=" ++ V)) st
      = some (set_rsize (some V)
          { st with log := st.log ++ [printk_msg.parsing (cstr "rsize=" ++ V)] }) := by
  have hcomma : ∀ t ∈ [cstr "rsize=" ++ V], 44 ∉ t := by
    intro t ht
    rw [List.mem_singleton.mp ht]
    simp only [List.mem_append, not_or]
    exact ⟨by decide, hc⟩
  have hne : cstr "rsize=" ++ V ≠ [] := by
    intro e; have := congrArg List.length e; simp [cstr] at this
  have h := parse_tokens M [cstr "rsize=" ++ V] hcomma st
  have e : join_comma [cstr "rsize=" ++ V] = cstr "rsize=" ++ V := rfl
  rw [e] at h
  rw [h]
  simp only [List.foldl_cons, List.foldl_nil, loop_round, if_neg hne, parse_option_rsize]

/-- Day11 parser on an option string that is the single token `wsize=V`. -/
theorem parse_single_wsize (M : Nat) (V : List Nat) (hc : 44 ∉ V) (st : parse_state) :
    samplefs_parse_mount_options M (some (cstr "wsize=" ++ V)) st
      = some (set_wsize (some V)
          { st with log := st.log ++ [printk_msg.parsing (cstr "wsize=" ++ V)] }) := by
  have hcomma : ∀ t ∈ [cstr "wsize=" ++ V], 44 ∉ t := by
    intro t ht
    rw [List.mem_singleton.mp ht]
    simp only [List.mem_append, not_or]
    exact ⟨by decide, hc⟩
  have hne : cstr "wsize=" ++ V ≠ [] := by
    intro e; have := congrArg List.length e; simp [cstr] at this
  have h := parse_tokens M [cstr "wsize=" ++ V] hcomma st
  have e : join_comma [cstr "wsize=" ++ V] = cstr "wsize=" ++ V := rfl
  rw [e] at h
  rw [h]
  simp only [List.foldl_cons, List.foldl_nil, loop_round, if_neg hne, parse_option_wsize]

/-- Claim C5 as stated fails.  The value `12abc` contains a non-digit character,
yet `rsize=12abc` on a zeroed config sets `rsize` to 12: `simple_strtoul` reads
the leading digits and the parser never looks at what follows them. -/
theorem trailing_garbage_accepted :
    samplefs_parse_mount_options 1 (some (cstr "rsize=12abc")) ⟨zeroed none, []⟩
      = some ⟨{ rsize := 12, wsize := 0, flags := 0, local_nls := none },
          [printk_msg.parsing (cstr "rsize=12abc"), printk_msg.rsize 12]⟩ ∧
    (12 : Nat) ≠ (zeroed none).rsize := by
  set_option maxRecDepth 4000 in decide

/-- Claim C5, amended.  For every initial config and log and every token
`rsize=V` or `wsize=V` (`V` free of commas) whose value `V` is empty, is a run of zeros, or begins
with a byte that is not a decimal digit (a sign as in `-1`, a letter as in
`abc`), day11 `samplefs_parse_mount_options` returns with `rsize`, `wsize`, the
flags and the code table unchanged and with no warning: the log grows by the
one `KERN_INFO` line that echoes the option string.  In particular `wsize=-1`
on a zeroed config leaves `wsize` at 0. -/
theorem bad_size_value_ignored (SFS_MNT_CASE : Nat) (st : parse_state) (V : List Nat)
    (hc : 44 ∉ V) (hV : ignored_value V) :
    (samplefs_parse_mount_options SFS_MNT_CASE (some (cstr "rsize=" ++ V)) st
      = some { sb := st.sb, log := st.log ++ [printk_msg.parsing (cstr "rsize=" ++ V)] } ∧
     samplefs_parse_mount_options SFS_MNT_CASE (some (cstr "wsize=" ++ V)) st
      = some { sb := st.sb, log := st.log ++ [printk_msg.parsing (cstr "wsize=" ++ V)] }) ∧
    warnings (st.log ++ [printk_msg.parsing (cstr "rsize=" ++ V)]) = warnings st.log ∧
    warnings (st.log ++ [printk_msg.parsing (cstr "wsize=" ++ V)]) = warnings st.log ∧
    (∀ nls, samplefs_parse_mount_options SFS_MNT_CASE (some (cstr "wsize=-1")) ⟨zeroed nls, []⟩
      = some ⟨zeroed nls, [printk_msg.parsing (cstr "wsize=-1")]⟩) := by
  have hz := simple_strtoul_ignored V hV
  refine ⟨⟨?_, ?_⟩, ?_, ?_, ?_⟩
  · rw [parse_single_rsize SFS_MNT_CASE V hc st, set_rsize_zero V hz]
  · rw [parse_single_wsize SFS_MNT_CASE V hc st, set_wsize_zero V hz]
  · simp [warnings, printk_msg.is_warning, List.countP_append]
  · simp [warnings, printk_msg.is_warning, List.countP_append]
  · intro nls
    have h1 : cstr "wsize=-1" = cstr "wsize=" ++ cstr "-1" := by decide
    rw [h1, parse_single_wsize SFS_MNT_CASE (cstr "-1") (by decide) ⟨zeroed nls, []⟩,
      set_wsize_zero (cstr "-1") (by decide)]
    rfl

/-- Witness of `bad_size_value_ignored`: the value `-1`. -/
theorem bad_size_value_ignored_witness :
    44 ∉ cstr "-1" ∧ ignored_value (cstr "-1") ∧
    samplefs_parse_mount_options 1 (some (cstr "wsize=" ++ cstr "-1")) ⟨zeroed none, []⟩
      = some ⟨zeroed none, [printk_msg.parsing (cstr "wsize=" ++ cstr "-1")]⟩ :=
  ⟨by decide, by decide,
    (bad_size_value_ignored 1 ⟨zeroed none, []⟩ (cstr "-1") (by decide) (by decide)).1.2⟩

theorem day3_parse_option_unknown (t : List Nat) (h : unknown_key (key_of t))
    (st : parse_state) :
    Day3.parse_option t st
      = { st with log := st.log ++ [printk_msg.bad_option (key_of t)] } := by
  obtain ⟨h1, h2, _, _⟩ := h
  have e1 := strncasecmp_eq_zero_iff (cstr "rsize") (key_of t) (by decide)
  have e2 := strncasecmp_eq_zero_iff (cstr "wsize") (key_of t) (by decide)
  have l1 : (cstr "rsize").length = 5 := by decide
  have l2 : (cstr "wsize").length = 5 := by decide
  rw [l1] at e1; rw [l2] at e2
  simp only [Day3.parse_option, strchr_eq_fst, if_neg (mt e1.mp h1), if_neg (mt e2.mp h2)]

/-- Claim C6 as stated fails.  The keys `rsizes`, `wsize_max` and `nocasefold`
are none of the four names, yet day11 `samplefs_parse_mount_options` takes them
for `rsize`, `wsize` and `nocase`: the config changes and no warning is
logged.  The keys are compared with `strncasecmp` over the length of the name
only. -/
theorem longer_key_recognized :
    (key_of (cstr "rsizes=8") = cstr "rsizes" ∧
      samplefs_parse_mount_options 1 (some (cstr "rsizes=8")) ⟨zeroed none, []⟩
        = some ⟨{ rsize := 8, wsize := 0, flags := 0, local_nls := none },
            [printk_msg.parsing (cstr "rsizes=8"), printk_msg.rsize 8]⟩) ∧
    (key_of (cstr "wsize_max=8") = cstr "wsize_max" ∧
      samplefs_parse_mount_options 1 (some (cstr "wsize_max=8")) ⟨zeroed none, []⟩
        = some ⟨{ rsize := 0, wsize := 8, flags := 0, local_nls := none },
            [printk_msg.parsing (cstr "wsize_max=8"), printk_msg.wsize 8]⟩) ∧
    (key_of (cstr "nocasefold") = cstr "nocasefold" ∧
      samplefs_parse_mount_options 1 (some (cstr "nocasefold")) ⟨zeroed none, []⟩
        = some ⟨{ rsize := 0, wsize := 0, flags := 1, local_nls := none },
            [printk_msg.parsing (cstr "nocasefold"), printk_msg.ignore_case]⟩) := by
  set_option maxRecDepth 4000 in decide

theorem strncasecmp_names (k : List Nat) :
    (strncasecmp k (cstr "rsize") 5 = 0 ↔ begins_ci (cstr "rsize") k) ∧
    (strncasecmp k (cstr "wsize") 5 = 0 ↔ begins_ci (cstr "wsize") k) ∧
    (strncasecmp k (cstr "nocase") 6 = 0 ↔ begins_ci (cstr "nocase") k) ∧
    (strncasecmp k (cstr "ignorecase") 10 = 0 ↔ begins_ci (cstr "ignorecase") k) := by
  have e1 := strncasecmp_eq_zero_iff (cstr "rsize") k (by decide)
  have e2 := strncasecmp_eq_zero_iff (cstr "wsize") k (by decide)
  have e3 := strncasecmp_eq_zero_iff (cstr "nocase") k (by decide)
  have e4 := strncasecmp_eq_zero_iff (cstr "ignorecase") k (by decide)
  have l1 : (cstr "rsize").length = 5 := by decide
  have l2 : (cstr "wsize").length = 5 := by decide
  have l3 : (cstr "nocase").length = 6 := by decide
  have l4 : (cstr "ignorecase").length = 10 := by decide
  rw [l1] at e1; rw [l2] at e2; rw [l3] at e3; rw [l4] at e4
  exact ⟨e1, e2, e3, e4⟩

theorem warnings_set_rsize (v : Option (List Nat)) (s : parse_state) :
    warnings (set_rsize v s).log = warnings s.log := by
  unfold set_rsize
  split
  · rfl
  · split_ifs <;> simp [warnings, printk_msg.is_warning, List.countP_append]

theorem warnings_set_wsize (v : Option (List Nat)) (s : parse_state) :
    warnings (set_wsize v s).log = warnings s.log := by
  unfold set_wsize
  split
  · rfl
  · split_ifs <;> simp [warnings, printk_msg.is_warning, List.countP_append]

/-- Day11 loop body on a token whose key begins with one of the four names:
the branch taken is the first name, in the order `rsize`, `wsize`,
`nocase` / `ignorecase`, the key begins with. -/
theorem parse_option_recognized (M : Nat) (t : List Nat) (s : parse_state)
    (h : ¬ unknown_key (key_of t)) :
    parse_option M t s
      = (if begins_ci (cstr "rsize") (key_of t) then set_rsize (strchr_eq t).2 s
         else if begins_ci (cstr "wsize") (key_of t) then set_wsize (strchr_eq t).2 s
         else { sb := { s.sb with flags := s.sb.flags ||| M },
                log := s.log ++ [printk_msg.ignore_case] }) := by
  obtain ⟨e1, e2, e3, e4⟩ := strncasecmp_names (key_of t)
  by_cases b1 : begins_ci (cstr "rsize") (key_of t)
  · simp only [parse_option, strchr_eq_fst, if_pos (e1.mpr b1), if_pos b1]
  · by_cases b2 : begins_ci (cstr "wsize") (key_of t)
    · simp only [parse_option, strchr_eq_fst, if_neg (mt e1.mp b1), if_pos (e2.mpr b2),
        if_neg b1, if_pos b2]
    · have b34 : begins_ci (cstr "nocase") (key_of t) ∨
          begins_ci (cstr "ignorecase") (key_of t) := by
        by_contra hn
        exact h ⟨b1, b2, fun x => hn (Or.inl x), fun x => hn (Or.inr x)⟩
      have c34 : strncasecmp (key_of t) (cstr "nocase") 6 = 0 ∨
          strncasecmp (key_of t) (cstr "ignorecase") 10 = 0 :=
        b34.elim (fun x => Or.inl (e3.mpr x)) (fun x => Or.inr (e4.mpr x))
      simp only [parse_option, strchr_eq_fst, if_neg (mt e1.mp b1), if_neg (mt e2.mp b2),
        if_pos c34, if_neg b1, if_neg b2]

/-- Day3 loop body on a token whose key begins with `rsize` or `wsize`. -/
theorem day3_parse_option_recognized (t : List Nat) (s : parse_state)
    (h : ¬ day3_unknown_key (key_of t)) :
    Day3.parse_option t s
      = (if begins_ci (cstr "rsize") (key_of t) then set_rsize (strchr_eq t).2 s
         else set_wsize (strchr_eq t).2 s) := by
  obtain ⟨e1, e2, _, _⟩ := strncasecmp_names (key_of t)
  by_cases b1 : begins_ci (cstr "rsize") (key_of t)
  · simp only [Day3.parse_option, strchr_eq_fst, if_pos (e1.mpr b1), if_pos b1]
  · have b2 : begins_ci (cstr "wsize") (key_of t) := by
      by_contra hn
      exact h ⟨b1, hn⟩
    simp only [Day3.parse_option, strchr_eq_fst, if_neg (mt e1.mp b1), if_pos (e2.mpr b2),
      if_neg b1]

/-- Day3 loop body on a token whose key begins with neither `rsize` nor
`wsize`. -/
theorem day3_parse_option_other (t : List Nat) (h : day3_unknown_key (key_of t))
    (s : parse_state) :
    Day3.parse_option t s
      = { sb := s.sb, log := s.log ++ [printk_msg.bad_option (key_of t)] } := by
  obtain ⟨e1, e2, _, _⟩ := strncasecmp_names (key_of t)
  simp only [Day3.parse_option, strchr_eq_fst, if_neg (mt e1.mp h.1), if_neg (mt e2.mp h.2)]

theorem warnings_recognized (M : Nat) (t : List Nat) (s : parse_state)
    (h : ¬ unknown_key (key_of t)) :
    warnings (parse_option M t s).log = warnings s.log := by
  rw [parse_option_recognized M t s h]
  split_ifs
  · exact warnings_set_rsize _ s
  · exact warnings_set_wsize _ s
  · simp [warnings, printk_msg.is_warning, List.countP_append]

theorem day3_warnings_recognized (t : List Nat) (s : parse_state)
    (h : ¬ day3_unknown_key (key_of t)) :
    warnings (Day3.parse_option t s).log = warnings s.log := by
  rw [day3_parse_option_recognized t s h]
  split_ifs
  · exact warnings_set_rsize _ s
  · exact warnings_set_wsize _ s

/-- Claim C6, amended.  The keys day11 `samplefs_parse_mount_options` recognizes
are exactly those that begin, ASCII case ignored, with `rsize`, `wsize`,
`nocase` or `ignorecase`; the keys the day3 parser recognizes are exactly those
that begin with `rsize` or `wsize` (there `nocase` and `ignorecase` are
unknown).  For every non-empty comma-free token `t` standing anywhere in an
option string (after the tokens `pre`, before the tokens `post`) the parser
returns, having run the round of `t` between the rounds of the tokens before
and after it.  If the key of `t` begins with none of the recognized names, the
round leaves the config as it was and logs exactly one warning, for the key
of `t`, and parsing goes on with the tokens after it.  If the key begins with
one of them, the round logs no warning and is the branch of the first name
the key begins with: the size branch on the text after the first `=`, or the
case flag. -/
theorem unknown_key_reported (SFS_MNT_CASE : Nat) (pre post : List (List Nat)) (t : List Nat)
    (st : parse_state) (hpre : ∀ u ∈ pre, 44 ∉ u) (hpost : ∀ u ∈ post, 44 ∉ u)
    (hne : t ≠ []) (hc : 44 ∉ t) :
    (samplefs_parse_mount_options SFS_MNT_CASE (some (join_comma (pre ++ t :: post))) st
      = some (post.foldl (loop_round (parse_option SFS_MNT_CASE))
          (parse_option SFS_MNT_CASE t
            (pre.foldl (loop_round (parse_option SFS_MNT_CASE))
              { st with log := st.log ++
                  [printk_msg.parsing (join_comma (pre ++ t :: post))] })))) ∧
    (unknown_key (key_of t) →
      samplefs_parse_mount_options SFS_MNT_CASE (some (join_comma (pre ++ t :: post))) st
        = some (post.foldl (loop_round (parse_option SFS_MNT_CASE))
            { sb := (pre.foldl (loop_round (parse_option SFS_MNT_CASE))
                      { st with log := st.log ++
                          [printk_msg.parsing (join_comma (pre ++ t :: post))] }).sb,
              log := (pre.foldl (loop_round (parse_option SFS_MNT_CASE))
                      { st with log := st.log ++
                          [printk_msg.parsing (join_comma (pre ++ t :: post))] }).log
                    ++ [printk_msg.bad_option (key_of t)] })) ∧
    (∀ s : parse_state,
      (unknown_key (key_of t) →
        parse_option SFS_MNT_CASE t s
          = { sb := s.sb, log := s.log ++ [printk_msg.bad_option (key_of t)] }) ∧
      (¬ unknown_key (key_of t) →
        warnings (parse_option SFS_MNT_CASE t s).log = warnings s.log ∧
        parse_option SFS_MNT_CASE t s
          = (if begins_ci (cstr "rsize") (key_of t) then set_rsize (strchr_eq t).2 s
             else if begins_ci (cstr "wsize") (key_of t) then set_wsize (strchr_eq t).2 s
             else { sb := { s.sb with flags := s.sb.flags ||| SFS_MNT_CASE },
                    log := s.log ++ [printk_msg.ignore_case] })) ∧
      (warnings (parse_option SFS_MNT_CASE t s).log = warnings s.log + 1 ↔
        unknown_key (key_of t))) ∧
    (Day3.samplefs_parse_mount_options (some (join_comma (pre ++ t :: post))) st
      = some (post.foldl (loop_round Day3.parse_option)
          (Day3.parse_option t
            (pre.foldl (loop_round Day3.parse_option)
              { st with log := st.log ++
                  [printk_msg.parsing (join_comma (pre ++ t :: post))] })))) ∧
    (day3_unknown_key (key_of t) →
      Day3.samplefs_parse_mount_options (some (join_comma (pre ++ t :: post))) st
        = some (post.foldl (loop_round Day3.parse_option)
            { sb := (pre.foldl (loop_round Day3.parse_option)
                      { st with log := st.log ++
                          [printk_msg.parsing (join_comma (pre ++ t :: post))] }).sb,
              log := (pre.foldl (loop_round Day3.parse_option)
                      { st with log := st.log ++
                          [printk_msg.parsing (join_comma (pre ++ t :: post))] }).log
                    ++ [printk_msg.bad_option (key_of t)] })) ∧
    (∀ s : parse_state,
      (day3_unknown_key (key_of t) →
        Day3.parse_option t s
          = { sb := s.sb, log := s.log ++ [printk_msg.bad_option (key_of t)] }) ∧
      (¬ day3_unknown_key (key_of t) →
        warnings (Day3.parse_option t s).log = warnings s.log ∧
        Day3.parse_option t s
          = (if begins_ci (cstr "rsize") (key_of t) then set_rsize (strchr_eq t).2 s
             else set_wsize (strchr_eq t).2 s)) ∧
      (warnings (Day3.parse_option t s).log = warnings s.log + 1 ↔
        day3_unknown_key (key_of t))) := by
  have hall : ∀ u ∈ pre ++ t :: post, 44 ∉ u := by
    intro u hu
    rcases List.mem_append.mp hu with h | h
    · exact hpre u h
    · rcases List.mem_cons.mp h with rfl | h
      · exact hc
      · exact hpost u h
  have hwarn : ∀ (s : parse_state) (k : List Nat),
      warnings (s.log ++ [printk_msg.bad_option k]) = warnings s.log + 1 := by
    intro s k
    simp [warnings, printk_msg.is_warning, List.countP_append]
  have run11 : samplefs_parse_mount_options SFS_MNT_CASE
      (some (join_comma (pre ++ t :: post))) st
      = some (post.foldl (loop_round (parse_option SFS_MNT_CASE))
          (parse_option SFS_MNT_CASE t
            (pre.foldl (loop_round (parse_option SFS_MNT_CASE))
              { st with log := st.log ++
                  [printk_msg.parsing (join_comma (pre ++ t :: post))] }))) := by
    rw [parse_tokens SFS_MNT_CASE _ hall st, List.foldl_append, List.foldl_cons]
    simp only [loop_round, if_neg hne]
  have run3 : Day3.samplefs_parse_mount_options (some (join_comma (pre ++ t :: post))) st
      = some (post.foldl (loop_round Day3.parse_option)
          (Day3.parse_option t
            (pre.foldl (loop_round Day3.parse_option)
              { st with log := st.log ++
                  [printk_msg.parsing (join_comma (pre ++ t :: post))] }))) := by
    rw [day3_parse_tokens _ hall st, List.foldl_append, List.foldl_cons]
    simp only [loop_round, if_neg hne]
  refine ⟨run11, ?_, ?_, run3, ?_, ?_⟩
  · intro hk
    rw [run11, parse_option_unknown SFS_MNT_CASE t hk]
  · intro s
    refine ⟨fun hk => parse_option_unknown SFS_MNT_CASE t hk s,
      fun hk => ⟨warnings_recognized SFS_MNT_CASE t s hk,
        parse_option_recognized SFS_MNT_CASE t s hk⟩, ?_⟩
    constructor
    · intro hw
      by_contra hk
      rw [warnings_recognized SFS_MNT_CASE t s hk] at hw
      omega
    · intro hk
      rw [parse_option_unknown SFS_MNT_CASE t hk s]
      exact hwarn s _
  · intro hk
    rw [run3, day3_parse_option_other t hk]
  · intro s
    refine ⟨fun hk => day3_parse_option_other t hk s,
      fun hk => ⟨day3_warnings_recognized t s hk, day3_parse_option_recognized t s hk⟩, ?_⟩
    constructor
    · intro hw
      by_contra hk
      rw [day3_warnings_recognized t s hk] at hw
      omega
    · intro hk
      rw [day3_parse_option_other t hk s]
      exact hwarn s _

/-- Witness of `unknown_key_reported`: `bogus=1` between `rsize=1` and
`nocase` is reported once; the upper-case `RSIZE=8` is taken for `rsize` by
both parsers without a warning; `NoCase` sets the flag in day11 and is
reported by day3. -/
theorem unknown_key_reported_witness :
    (∀ u ∈ [cstr "rsize=1"], 44 ∉ u) ∧ (∀ u ∈ [cstr "nocase"], 44 ∉ u) ∧
    cstr "bogus=1" ≠ [] ∧ 44 ∉ cstr "bogus=1" ∧ unknown_key (key_of (cstr "bogus=1")) ∧
    samplefs_parse_mount_options 1
        (some (join_comma ([cstr "rsize=1"] ++ cstr "bogus=1" :: [cstr "nocase"])))
        ⟨zeroed none, []⟩
      = some ⟨{ rsize := 1, wsize := 0, flags := 1, local_nls := none },
          [printk_msg.parsing (cstr "rsize=1,bogus=1,nocase"), printk_msg.rsize 1,
           printk_msg.bad_option (cstr "bogus"), printk_msg.ignore_case]⟩ ∧
    (cstr "RSIZE=8" ≠ [] ∧ 44 ∉ cstr "RSIZE=8" ∧ ¬ unknown_key (key_of (cstr "RSIZE=8")) ∧
      warnings (parse_option 1 (cstr "RSIZE=8") ⟨zeroed none, []⟩).log = 0 ∧
      parse_option 1 (cstr "RSIZE=8") ⟨zeroed none, []⟩
        = ⟨{ rsize := 8, wsize := 0, flags := 0, local_nls := none }, [printk_msg.rsize 8]⟩ ∧
      Day3.parse_option (cstr "RSIZE=8") ⟨zeroed none, []⟩
        = ⟨{ rsize := 8, wsize := 0, flags := 0, local_nls := none }, [printk_msg.rsize 8]⟩) ∧
    (cstr "NoCase" ≠ [] ∧ 44 ∉ cstr "NoCase" ∧ ¬ unknown_key (key_of (cstr "NoCase")) ∧
      day3_unknown_key (key_of (cstr "NoCase")) ∧
      parse_option 1 (cstr "NoCase") ⟨zeroed none, []⟩
        = ⟨{ rsize := 0, wsize := 0, flags := 1, local_nls := none },
            [printk_msg.ignore_case]⟩ ∧
      Day3.parse_option (cstr "NoCase") ⟨zeroed none, []⟩
        = ⟨zeroed none, [printk_msg.bad_option (cstr "NoCase")]⟩) := by
  have r8 := (unknown_key_reported 1 [] [] (cstr "RSIZE=8") ⟨zeroed none, []⟩
    (by decide) (by decide) (by decide) (by decide))
  have nc := (unknown_key_reported 1 [] [] (cstr "NoCase") ⟨zeroed none, []⟩
    (by decide) (by decide) (by decide) (by decide))
  refine ⟨by decide, by decide, by decide, by decide, by decide, ?_,
    ⟨by decide, by decide, by decide, ?_, ?_, ?_⟩,
    ⟨by decide, by decide, by decide, by decide, ?_, ?_⟩⟩
  · rw [(unknown_key_reported 1 [cstr "rsize=1"] [cstr "nocase"] (cstr "bogus=1")
      ⟨zeroed none, []⟩ (by decide) (by decide) (by decide) (by decide)).2.1 (by decide)]
    set_option maxRecDepth 4000 in decide
  · rw [((r8.2.2.1 ⟨zeroed none, []⟩).2.1 (by decide)).1]
    rfl
  · rw [((r8.2.2.1 ⟨zeroed none, []⟩).2.1 (by decide)).2]
    set_option maxRecDepth 4000 in decide
  · rw [((r8.2.2.2.2.2 ⟨zeroed none, []⟩).2.1 (by decide)).2]
    set_option maxRecDepth 4000 in decide
  · rw [((nc.2.2.1 ⟨zeroed none, []⟩).2.1 (by decide)).2]
    set_option maxRecDepth 4000 in decide
  · rw [(nc.2.2.2.2.2 ⟨zeroed none, []⟩).1 (by decide)]
    set_option maxRecDepth 4000 in decide

/-- Claim C10 as stated fails.  The value is read into an `int`: `rsize=4294967297`
(`2^32 + 1`) on a zeroed config stores 1, and `wsize=2147483648` (`2^31`)
stores nothing. -/
theorem size_wraps_to_int :
    (cstr "rsize=4294967297" = cstr "rsize=" ++ decimal 4294967297 ∧
      samplefs_parse_mount_options 1 (some (cstr "rsize=4294967297")) ⟨zeroed none, []⟩
        = some ⟨{ rsize := 1, wsize := 0, flags := 0, local_nls := none },
            [printk_msg.parsing (cstr "rsize=4294967297"), printk_msg.rsize 1]⟩) ∧
    (cstr "wsize=2147483648" = cstr "wsize=" ++ decimal 2147483648 ∧
      samplefs_parse_mount_options 1 (some (cstr "wsize=2147483648")) ⟨zeroed none, []⟩
        = some ⟨zeroed none, [printk_msg.parsing (cstr "wsize=2147483648")]⟩) := by
  refine ⟨⟨?_, ?_⟩, ⟨?_, ?_⟩⟩
  · simp [decimal, cstr]
  · set_option maxRecDepth 4000 in decide
  · simp [decimal, cstr]
  · set_option maxRecDepth 4000 in decide

/-- Claim C10, amended.  For every `N` with `1 ≤ N < 2^31` written as a decimal
literal, every initial config and log, day11 `samplefs_parse_mount_options` on
the token `rsize=N` returns with `rsize` exactly `N`, and on `wsize=N` with
`wsize` exactly `N`; nothing else of the config changes and the log grows by
the echo of the option string and the `KERN_INFO` line of the size. -/
theorem size_stored_exactly (SFS_MNT_CASE : Nat) (st : parse_state) (N : Nat)
    (h1 : 1 ≤ N) (h2 : N < 2 ^ 31) :
    samplefs_parse_mount_options SFS_MNT_CASE (some (cstr "rsize=" ++ decimal N)) st
      = some { sb := { st.sb with rsize := N },
               log := st.log ++ [printk_msg.parsing (cstr "rsize=" ++ decimal N),
                                 printk_msg.rsize N] } ∧
    samplefs_parse_mount_options SFS_MNT_CASE (some (cstr "wsize=" ++ decimal N)) st
      = some { sb := { st.sb with wsize := N },
               log := st.log ++ [printk_msg.parsing (cstr "wsize=" ++ decimal N),
                                 printk_msg.wsize N] } := by
  have hc : 44 ∉ decimal N := fun hc => by have := decimal_digit N 44 hc; omega
  constructor
  · rw [parse_single_rsize SFS_MNT_CASE _ hc st, set_rsize_decimal N ⟨h1, h2⟩]
    simp
  · rw [parse_single_wsize SFS_MNT_CASE _ hc st, set_wsize_decimal N ⟨h1, h2⟩]
    simp

/-- Witness of `size_stored_exactly`: `N = 4096`. -/
theorem size_stored_exactly_witness :
    1 ≤ 4096 ∧ 4096 < 2 ^ 31 ∧ decimal 4096 = cstr "4096" ∧
    samplefs_parse_mount_options 1 (some (cstr "rsize=" ++ decimal 4096)) ⟨zeroed none, []⟩
      = some ⟨{ rsize := 4096, wsize := 0, flags := 0, local_nls := none },
          [printk_msg.parsing (cstr "rsize=" ++ decimal 4096), printk_msg.rsize 4096]⟩ :=
  ⟨by norm_num, by norm_num, by simp [decimal, cstr],
    (size_stored_exactly 1 ⟨zeroed none, []⟩ 4096 (by norm_num) (by norm_num)).1⟩

theorem exists_tokens : ∀ s : List Nat,
    ∃ ts : List (List Nat), ts ≠ [] ∧ (∀ t ∈ ts, 44 ∉ t) ∧ join_comma ts = s
  | [] => ⟨[[]], by simp, by simp, rfl⟩
  | c :: s => by
    obtain ⟨ts, hne, hc, hj⟩ := exists_tokens s
    cases ts with
    | nil => exact absurd rfl hne
    | cons t ts =>
      by_cases h : c = 44
      · refine ⟨[] :: t :: ts, by simp, ?_, ?_⟩
        · intro u hu
          rcases List.mem_cons.mp hu with rfl | hu
          · simp
          · exact hc u hu
        · simp [join_comma, hj, h]
      · refine ⟨(c :: t) :: ts, by simp, ?_, ?_⟩
        · intro u hu
          rcases List.mem_cons.mp hu with rfl | hu
          · have := hc t (by simp)
            simp only [List.mem_cons, not_or]
            exact ⟨fun e => h e.symm, this⟩
          · exact hc u (by simp [hu])
        · cases ts with
          | nil => simpa [join_comma] using hj
          | cons t2 ts => simpa [join_comma] using hj

/-- Day11 `samplefs_parse_mount_options` returns on every option string: the
fuel it is given is enough. -/
theorem samplefs_parse_mount_options_returns (M : Nat) (o : List Nat) (st : parse_state) :
    ∃ st', samplefs_parse_mount_options M (some o) st = some st' := by
  obtain ⟨ts, _, hc, rfl⟩ := exists_tokens o
  exact ⟨_, parse_tokens M ts hc st⟩

/-! ## Case-insensitive names -/

theorem nls_strnicmp_zero_or_one (t : nls_table) :
    ∀ (n : Nat) (s1 s2 : List Nat), nls_strnicmp t s1 s2 n = 0 ∨ nls_strnicmp t s1 s2 n = 1
  | 0, _, _ => Or.inl rfl
  | n + 1, s1, s2 => by
    simp only [nls_strnicmp]
    split_ifs
    · exact Or.inr rfl
    · exact nls_strnicmp_zero_or_one t n _ _

theorem nls_strnicmp_eq_zero_iff (t : nls_table) :
    ∀ (s1 s2 : List Nat), s1.length = s2.length →
      (nls_strnicmp t s1 s2 s1.length = 0 ↔
        ∀ i, i < s1.length → nls_tolower t (s1.getD i 0) = nls_tolower t (s2.getD i 0))
  | [], _, _ => by simp [nls_strnicmp]
  | a :: s1, [], h => by simp at h
  | a :: s1, b :: s2, h => by
    have hl : s1.length = s2.length := by simpa using h
    have ih := nls_strnicmp_eq_zero_iff t s1 s2 hl
    simp only [List.length_cons, nls_strnicmp, List.headD_cons, List.tail_cons]
    by_cases hab : nls_tolower t a = nls_tolower t b
    · rw [if_neg (not_not.mpr hab), ih]
      constructor
      · intro hall i hi
        cases i with
        | zero => simpa using hab
        | succ j => simpa using hall j (by omega)
      · intro hall i hi
        simpa using hall (i + 1) (by omega)
    · rw [if_pos hab]
      constructor
      · intro h1; exact absurd h1 (by decide)
      · intro hall; exact absurd (by simpa using hall 0 (by omega)) hab

theorem range_foldl_getD {α : Type} (F : Nat → α → α) :
    ∀ (l : List Nat) (init : α),
      (List.range l.length).foldl (fun h i => F (l.getD i 0) h) init
        = l.foldl (fun h c => F c h) init
  | [], _ => rfl
  | x :: l, init => by
    rw [List.length_cons, List.range_succ_eq_map, List.foldl_cons, List.foldl_map]
    simpa using range_foldl_getD F l (F x init)

theorem sfs_ci_hash_eq (H : name_hash) (salt : Nat) (cp : nls_table) (q : qstr)
    (hq : q.len = q.name.length) :
    (sfs_ci_hash H salt cp q).2.hash = hash_of_bytes H salt (q.name.map (nls_tolower cp)) := by
  simp only [sfs_ci_hash, hash_of_bytes, hq]
  rw [range_foldl_getD (fun c h => H.partial_name_hash (nls_tolower cp c) h), List.foldl_map]

theorem map_eq_of_pointwise (f : Nat → Nat) :
    ∀ (s1 s2 : List Nat), s1.length = s2.length →
      (∀ i, i < s1.length → f (s1.getD i 0) = f (s2.getD i 0)) → s1.map f = s2.map f
  | [], [], _, _ => rfl
  | [], b :: s2, h, _ => by simp at h
  | a :: s1, [], h, _ => by simp at h
  | a :: s1, b :: s2, h, hall => by
    have h0 : f a = f b := by simpa using hall 0 (by simp)
    have ih := map_eq_of_pointwise f s1 s2 (by simpa using h)
      (fun i hi => by simpa using hall (i + 1) (by simp; omega))
    simp [h0, ih]

theorem sfs_ci_compare_eq_zero_iff (codepage : nls_table) (s : List Nat) (q : qstr)
    (hq : q.len = q.name.length) :
    sfs_ci_compare codepage s.length s q = 0 ↔
      s.length = q.name.length ∧
      ∀ i, i < s.length →
        nls_tolower codepage (s.getD i 0) = nls_tolower codepage (q.name.getD i 0) := by
  unfold sfs_ci_compare
  rw [hq]
  by_cases hl : s.length = q.name.length
  · rw [← nls_strnicmp_eq_zero_iff codepage s q.name hl]
    by_cases hz : nls_strnicmp codepage s q.name s.length = 0
    · simp [hl, hz]
    · simp [hl, hz]
  · simp [hl]

theorem folds_ascii_table : folds_ascii ascii_table := by
  intro c hc
  obtain ⟨h1, h2⟩ := hc
  interval_cases c <;> decide

/-- Claim C3. `sfs_ci_compare` on a string of `str.length` bytes and a well-formed
name returns 0 or 1, and returns 0 exactly when the two have the same length
and `nls_tolower` of the two bytes agrees at every position.  Hence names of
different length never compare equal, and under a code table that folds the
ASCII letters to lower case `File.txt`, `FILE.TXT` and `file.txt` compare equal
to one another. -/
theorem sfs_ci_compare_spec (codepage : nls_table) (str : List Nat) (name : qstr)
    (hname : name.len = name.name.length) :
    (sfs_ci_compare codepage str.length str name = 0 ∨
      sfs_ci_compare codepage str.length str name = 1) ∧
    (sfs_ci_compare codepage str.length str name = 0 ↔
      str.length = name.name.length ∧
      ∀ i, i < str.length →
        nls_tolower codepage (str.getD i 0) = nls_tolower codepage (name.name.getD i 0)) ∧
    (str.length ≠ name.name.length → sfs_ci_compare codepage str.length str name = 1) ∧
    (folds_ascii codepage →
      ∀ a ∈ [cstr "File.txt", cstr "FILE.TXT", cstr "file.txt"],
      ∀ b ∈ [cstr "File.txt", cstr "FILE.TXT", cstr "file.txt"],
      ∀ h : Nat, sfs_ci_compare codepage a.length a ⟨h, b.length, b⟩ = 0) := by
  have key := sfs_ci_compare_eq_zero_iff codepage
  refine ⟨?_, key str name hname, ?_, ?_⟩
  · unfold sfs_ci_compare; split_ifs <;> simp
  · intro hl
    unfold sfs_ci_compare
    rw [hname, if_neg (fun h => hl h.1)]
  · intro hf a ha b hb h
    rw [key a ⟨h, b.length, b⟩ rfl]
    have hF := hf 70 (by omega)
    have hI := hf 73 (by omega)
    have hL := hf 76 (by omega)
    have hE := hf 69 (by omega)
    have hT := hf 84 (by omega)
    have hX := hf 88 (by omega)
    simp only [Nat.reduceAdd] at hF hI hL hE hT hX
    have e1 : (cstr "File.txt").map (nls_tolower codepage)
        = (cstr "file.txt").map (nls_tolower codepage) := by
      simp [cstr, hF.1, hF.2]
    have e2 : (cstr "FILE.TXT").map (nls_tolower codepage)
        = (cstr "file.txt").map (nls_tolower codepage) := by
      simp [cstr, hF.1, hI.1, hL.1, hE.1, hT.1, hX.1, hF.2, hI.2, hL.2, hE.2, hT.2, hX.2]
    have hmap : a.map (nls_tolower codepage) = b.map (nls_tolower codepage) := by
      simp only [List.mem_cons, List.mem_singleton, List.not_mem_nil, or_false] at ha hb
      rcases ha with rfl | rfl | rfl <;> rcases hb with rfl | rfl | rfl <;>
        simp only [e1, e2]
    have hlen : a.length = b.length := by
      have := congrArg List.length hmap
      simpa using this
    refine ⟨hlen, fun i hi => ?_⟩
    have := congrArg (fun l => l.getD i (nls_tolower codepage 0)) hmap
    simpa [List.getD_map] using this

/-- Witness of `sfs_ci_compare_spec`: `File.txt` against `FILE.TXT` under
`ascii_table`. -/
theorem sfs_ci_compare_spec_witness :
    (⟨0, 8, cstr "FILE.TXT"⟩ : qstr).len = (⟨0, 8, cstr "FILE.TXT"⟩ : qstr).name.length ∧
    folds_ascii ascii_table ∧
    sfs_ci_compare ascii_table 8 (cstr "File.txt") ⟨0, 8, cstr "FILE.TXT"⟩ = 0 :=
  ⟨rfl, folds_ascii_table,
    (sfs_ci_compare_spec ascii_table (cstr "File.txt") ⟨0, 8, cstr "FILE.TXT"⟩ rfl).2.2.2
      folds_ascii_table (cstr "File.txt") (by simp) (cstr "FILE.TXT") (by simp) 0⟩

/-- Claim C4. The case-insensitive hash agrees with case-insensitive equality.
For every choice of the dcache hash primitives, every code table and every
two well-formed names under the same parent dentry (same salt, same code
table): if `sfs_ci_compare` returns 0 on them, `sfs_ci_hash` stores the same
hash for both.  The hash `sfs_ci_hash` stores for a name is the ordinary hash
of its byte-wise folded form; the call returns 0 and leaves the name and its
length as they were. -/
theorem sfs_ci_hash_agrees (H : name_hash) (salt : Nat) (codepage : nls_table) (a b : qstr)
    (ha : a.len = a.name.length) (hb : b.len = b.name.length) :
    (sfs_ci_compare codepage a.len a.name b = 0 →
      (sfs_ci_hash H salt codepage a).2.hash = (sfs_ci_hash H salt codepage b).2.hash) ∧
    (sfs_ci_hash H salt codepage a).2.hash
      = hash_of_bytes H salt (a.name.map (nls_tolower codepage)) ∧
    (sfs_ci_hash H salt codepage a).1 = 0 ∧
    (sfs_ci_hash H salt codepage a).2.name = a.name ∧
    (sfs_ci_hash H salt codepage a).2.len = a.len := by
  refine ⟨?_, sfs_ci_hash_eq H salt codepage a ha, rfl, rfl, rfl⟩
  intro hcmp
  rw [ha] at hcmp
  obtain ⟨hl, hall⟩ := (sfs_ci_compare_eq_zero_iff codepage a.name b hb).mp hcmp
  rw [sfs_ci_hash_eq H salt codepage a ha, sfs_ci_hash_eq H salt codepage b hb,
    map_eq_of_pointwise (nls_tolower codepage) a.name b.name hl hall]

/-- Witness of `sfs_ci_hash_agrees`: `File.txt` and `FILE.TXT` under
`ascii_table` with the kernel's hash primitives. -/
theorem sfs_ci_hash_agrees_witness :
    (⟨0, 8, cstr "File.txt"⟩ : qstr).len = (⟨0, 8, cstr "File.txt"⟩ : qstr).name.length ∧
    (⟨0, 8, cstr "FILE.TXT"⟩ : qstr).len = (⟨0, 8, cstr "FILE.TXT"⟩ : qstr).name.length ∧
    sfs_ci_compare ascii_table 8 (cstr "File.txt") ⟨0, 8, cstr "FILE.TXT"⟩ = 0 ∧
    (sfs_ci_hash linux_name_hash 4096 ascii_table ⟨0, 8, cstr "File.txt"⟩).2.hash
      = (sfs_ci_hash linux_name_hash 4096 ascii_table ⟨0, 8, cstr "FILE.TXT"⟩).2.hash :=
  ⟨rfl, rfl, by decide,
    (sfs_ci_hash_agrees linux_name_hash 4096 ascii_table ⟨0, 8, cstr "File.txt"⟩
      ⟨0, 8, cstr "FILE.TXT"⟩ rfl rfl).1 (by decide)⟩

/-! ## Node creation -/

theorem samplefs_get_inode_none (k : kernel) (mode dev : Nat) (h : k.new_inode_ok = false) :
    samplefs_get_inode k mode dev = none := by
  simp [samplefs_get_inode, new_inode, h]

/-- When `new_inode` succeeds `samplefs_get_inode` returns an inode whose
owner, times, link count and mode are as listed. -/
theorem samplefs_get_inode_some (k : kernel) (mode dev : Nat) (hmode : mode < 2 ^ 16)
    (h : k.new_inode_ok = true) :
    ∃ inode, samplefs_get_inode k mode dev = some inode ∧
      inode.i_nlink = (if mode &&& S_IFMT = S_IFDIR then 2 else 1) ∧
      inode.i_mode = mode ∧ inode.i_uid = k.fsuid ∧ inode.i_gid = k.fsgid ∧
      inode.i_atime = k.time_create ∧ inode.i_mtime = k.time_create ∧
      inode.i_ctime = k.time_create := by
  have hm : mode % 2 ^ 16 = mode := Nat.mod_eq_of_lt hmode
  simp only [samplefs_get_inode, new_inode, h, if_true]
  by_cases h1 : mode &&& S_IFMT = S_IFREG
  · have : ¬ (mode &&& S_IFMT = S_IFDIR) := by rw [h1]; decide
    exact ⟨_, by rw [if_pos h1], by simp [this], hm, rfl, rfl, rfl, rfl, rfl⟩
  · by_cases h2 : mode &&& S_IFMT = S_IFDIR
    · exact ⟨_, by rw [if_neg h1, if_pos h2], by simp [h2, inc_nlink], hm, rfl, rfl, rfl, rfl,
        rfl⟩
    · by_cases h3 : mode &&& S_IFMT = S_IFLNK
      · exact ⟨_, by rw [if_neg h1, if_neg h2, if_pos h3], by simp [h2], hm, rfl, rfl, rfl, rfl,
          rfl⟩
      · refine ⟨_, by rw [if_neg h1, if_neg h2, if_neg h3], ?_, ?_, ?_, ?_, ?_, ?_, ?_⟩ <;>
          (unfold init_special_inode; split_ifs <;> simp [h2] <;> omega)

/-- Claim C7. For every mode that fits `i_mode` and every device,
`samplefs_get_inode` succeeds exactly when `new_inode` does, and the node it
then returns has link count 2 if the mode's file type is directory and 1 for
every other type, mode equal to the requested mode, uid and gid the caller's
fsuid and fsgid, and access, modify and change times all equal to the one
reading of the clock taken at creation. -/
theorem samplefs_get_inode_spec (k : kernel) (mode dev : Nat) (hmode : mode < 2 ^ 16) :
    ((samplefs_get_inode k mode dev).isSome = k.new_inode_ok) ∧
    ∀ inode, samplefs_get_inode k mode dev = some inode →
      inode.i_nlink = (if mode &&& S_IFMT = S_IFDIR then 2 else 1) ∧
      inode.i_mode = mode ∧ inode.i_uid = k.fsuid ∧ inode.i_gid = k.fsgid ∧
      inode.i_atime = k.time_create ∧ inode.i_mtime = k.time_create ∧
      inode.i_ctime = k.time_create := by
  cases hk : k.new_inode_ok with
  | false =>
    rw [samplefs_get_inode_none k mode dev hk]
    exact ⟨rfl, fun inode h => by cases h⟩
  | true =>
    obtain ⟨i, hi, hprops⟩ := samplefs_get_inode_some k mode dev hmode hk
    rw [hi]
    refine ⟨rfl, fun inode h => ?_⟩
    cases h
    exact hprops

/-- Witness of `samplefs_get_inode_spec`: a directory, mode `040755`. -/
theorem samplefs_get_inode_spec_witness :
    0o040755 < 2 ^ 16 ∧
    (∃ inode, samplefs_get_inode ⟨true, 1000, 100, 77, 78, 0⟩ 0o040755 0 = some inode) ∧
    ∀ inode, samplefs_get_inode ⟨true, 1000, 100, 77, 78, 0⟩ 0o040755 0 = some inode →
      inode.i_nlink = 2 ∧ inode.i_mode = 0o040755 ∧ inode.i_uid = 1000 ∧ inode.i_gid = 100 ∧
      inode.i_atime = 77 ∧ inode.i_mtime = 77 ∧ inode.i_ctime = 77 :=
  ⟨by norm_num, ⟨_, rfl⟩,
    fun inode h =>
      (samplefs_get_inode_spec ⟨true, 1000, 100, 77, 78, 0⟩ 0o040755 0 (by norm_num)).2 inode h⟩

/-- Claim C2 fails on the code.  `sfs_mknod` returns `-ENOSPC` whether or not a
node was allocated, so the `if (!retval) inc_nlink(dir);` of `sfs_mkdir` never
runs: for every kernel state, parent, dentry and mode `sfs_mkdir` returns
`-ENOSPC` and leaves the parent's link count as it was.  On a parent of link
count 2, with allocation succeeding, the child `d` is created and attached
(link count 2) and the parent's link count is still 2. -/
theorem sfs_mkdir_parent_nlink_unchanged :
    (∀ (k : kernel) (dir : inode) (de : dentry) (mode : Nat),
      (sfs_mkdir k dir de mode).error = -ENOSPC ∧
      (sfs_mkdir k dir de mode).dir.i_nlink = dir.i_nlink) ∧
    (sfs_mkdir ⟨true, 1000, 100, 77, 78, 0⟩
        { i_mode := 0o040755, i_uid := 0, i_gid := 0, i_nlink := 2, i_rdev := 0, i_size := 0,
          i_blocks := 0, i_atime := 1, i_mtime := 1, i_ctime := 1,
          i_op := inode_ops.sfs_dir_inode_ops, i_fop := file_ops.simple_dir_operations,
          sfs_aops := true, i_data := [] }
        ⟨cstr "d", none, 1⟩ 0o755
      = { error := -28,
          dir := { i_mode := 0o040755, i_uid := 0, i_gid := 0, i_nlink := 2, i_rdev := 0,
                   i_size := 32, i_blocks := 0, i_atime := 1, i_mtime := 78, i_ctime := 78,
                   i_op := inode_ops.sfs_dir_inode_ops, i_fop := file_ops.simple_dir_operations,
                   sfs_aops := true, i_data := [] },
          dentry := ⟨cstr "d",
            some { i_mode := 0o040755, i_uid := 1000, i_gid := 100, i_nlink := 2, i_rdev := 0,
                   i_size := 0, i_blocks := 0, i_atime := 77, i_mtime := 77, i_ctime := 77,
                   i_op := inode_ops.sfs_dir_inode_ops,
                   i_fop := file_ops.simple_dir_operations, sfs_aops := true, i_data := [] },
            2⟩ }) := by
  constructor
  · intro k dir de mode
    have herr : (sfs_mknod k dir de (mode ||| S_IFDIR) 0).error = -ENOSPC := by
      unfold sfs_mknod; split <;> rfl
    have hne : ¬ ((sfs_mknod k dir de (mode ||| S_IFDIR) 0).error = 0) := by
      rw [herr]; decide
    have hnl : (sfs_mknod k dir de (mode ||| S_IFDIR) 0).dir.i_nlink = dir.i_nlink := by
      unfold sfs_mknod; split <;> rfl
    simp only [sfs_mkdir, if_neg hne]
    exact ⟨herr, hnl⟩
  · decide

/-! ## Setgid inheritance -/

/-- Claim C9 as stated fails.  Under a setgid parent (mode `042755`, gid 50)
`sfs_create` with mode `0644` and `sfs_symlink` both succeed in creating a node
that has the parent's gid but whose mode has no setgid bit. -/
theorem setgid_bit_not_inherited_by_files :
    (∃ i, (sfs_create ⟨true, 1000, 100, 77, 78, 0⟩
        { i_mode := 0o042755, i_uid := 0, i_gid := 50, i_nlink := 2, i_rdev := 0, i_size := 0,
          i_blocks := 0, i_atime := 1, i_mtime := 1, i_ctime := 1,
          i_op := inode_ops.sfs_dir_inode_ops, i_fop := file_ops.simple_dir_operations,
          sfs_aops := true, i_data := [] }
        ⟨cstr "f", none, 1⟩ 0o644 false).dentry.d_inode = some i ∧
      i.i_gid = 50 ∧ i.i_mode = 0o100644 ∧ i.i_mode &&& S_ISGID = 0) ∧
    (∃ i, (sfs_symlink ⟨true, 1000, 100, 77, 78, 0⟩
        { i_mode := 0o042755, i_uid := 0, i_gid := 50, i_nlink := 2, i_rdev := 0, i_size := 0,
          i_blocks := 0, i_atime := 1, i_mtime := 1, i_ctime := 1,
          i_op := inode_ops.sfs_dir_inode_ops, i_fop := file_ops.simple_dir_operations,
          sfs_aops := true, i_data := [] }
        ⟨cstr "l", none, 1⟩ (cstr "target")).dentry.d_inode = some i ∧
      i.i_gid = 50 ∧ i.i_mode = 0o120777 ∧ i.i_mode &&& S_ISGID = 0) := by
  constructor
  · exact ⟨_, rfl, by decide, by decide, by decide⟩
  · exact ⟨_, rfl, by decide, by decide, by decide⟩

theorem sfs_mknod_new_inode (k : kernel) (dir : inode) (de : dentry) (m dev : Nat)
    (hk : k.new_inode_ok = true) (hm : m < 2 ^ 16) :
    ∃ i, (sfs_mknod k dir de m dev).dentry.d_inode = some i ∧
      i.i_gid = (if dir.i_mode &&& S_ISGID ≠ 0 then dir.i_gid else k.fsgid) ∧
      i.i_mode = (if dir.i_mode &&& S_ISGID ≠ 0 ∧ S_ISDIR m then m ||| S_ISGID else m) := by
  obtain ⟨i0, hi0, _, hmode, _, hgid, _⟩ := samplefs_get_inode_some k m dev hm hk
  simp only [sfs_mknod, hi0]
  by_cases hs : dir.i_mode &&& S_ISGID ≠ 0
  · by_cases hd : S_ISDIR m
    · exact ⟨_, rfl, by simp [hs, hd], by simp [hs, hd, hmode]⟩
    · exact ⟨_, rfl, by simp [hs, hd], by simp [hs, hd, hmode]⟩
  · exact ⟨_, rfl, by simp [hs, hgid], by simp [hs, hmode]⟩

theorem or_ifdir_isdir (mode : Nat) (hperm : mode &&& S_IFMT = 0) : S_ISDIR (mode ||| S_IFDIR) := by
  unfold S_ISDIR
  rw [Nat.and_distrib_right, hperm]
  decide

theorem or_ifreg_not_isdir (mode : Nat) (hperm : mode &&& S_IFMT = 0) :
    ¬ S_ISDIR (mode ||| S_IFREG) := by
  unfold S_ISDIR
  rw [Nat.and_distrib_right, hperm]
  decide

/-- Claim C9, amended.  Whenever a node is created (`new_inode` succeeds, and for a
symlink `page_symlink` returns 0), for a requested mode of permission bits
only: if the parent's setgid bit is set, the new node's gid is the parent's
gid, and the setgid bit is added to the new node's mode only when the node is
a directory (`sfs_mkdir`, or `sfs_mknod` with a directory mode), while a node
made by `sfs_create`, by `sfs_symlink` or by `sfs_mknod` with another type gets
exactly the requested mode; if the parent's setgid bit is clear, the new node
keeps the caller's gid and exactly the requested mode. -/
theorem setgid_inheritance (k : kernel) (dir : inode) (de : dentry) (mode nmode dev : Nat)
    (symname : List Nat) (excl : Bool) (hk : k.new_inode_ok = true) (hsym : k.page_symlink_error = 0)
    (hmode : mode < 2 ^ 16) (hperm : mode &&& S_IFMT = 0) (hnmode : nmode < 2 ^ 16) :
    (∃ i, (sfs_mknod k dir de nmode dev).dentry.d_inode = some i ∧
      i.i_gid = (if dir.i_mode &&& S_ISGID ≠ 0 then dir.i_gid else k.fsgid) ∧
      i.i_mode = (if dir.i_mode &&& S_ISGID ≠ 0 ∧ S_ISDIR nmode then nmode ||| S_ISGID
                  else nmode)) ∧
    (∃ i, (sfs_mkdir k dir de mode).dentry.d_inode = some i ∧
      i.i_gid = (if dir.i_mode &&& S_ISGID ≠ 0 then dir.i_gid else k.fsgid) ∧
      i.i_mode = (if dir.i_mode &&& S_ISGID ≠ 0 then mode ||| S_IFDIR ||| S_ISGID
                  else mode ||| S_IFDIR)) ∧
    (∃ i, (sfs_create k dir de mode excl).dentry.d_inode = some i ∧
      i.i_gid = (if dir.i_mode &&& S_ISGID ≠ 0 then dir.i_gid else k.fsgid) ∧
      i.i_mode = mode ||| S_IFREG) ∧
    (∃ i, (sfs_symlink k dir de symname).dentry.d_inode = some i ∧
      i.i_gid = (if dir.i_mode &&& S_ISGID ≠ 0 then dir.i_gid else k.fsgid) ∧
      i.i_mode = S_IFLNK ||| S_IRWXUGO) := by
  have hdirlt : mode ||| S_IFDIR < 2 ^ 16 := Nat.or_lt_two_pow hmode (by decide)
  have hreglt : mode ||| S_IFREG < 2 ^ 16 := Nat.or_lt_two_pow hmode (by decide)
  refine ⟨sfs_mknod_new_inode k dir de nmode dev hk hnmode, ?_, ?_, ?_⟩
  · obtain ⟨i, hi, hg, hmo⟩ := sfs_mknod_new_inode k dir de (mode ||| S_IFDIR) 0 hk hdirlt
    have herr : ¬ ((sfs_mknod k dir de (mode ||| S_IFDIR) 0).error = 0) := by
      have : (sfs_mknod k dir de (mode ||| S_IFDIR) 0).error = -ENOSPC := by
        unfold sfs_mknod; split <;> rfl
      rw [this]; decide
    refine ⟨i, ?_, hg, ?_⟩
    · simp only [sfs_mkdir, if_neg herr]; exact hi
    · rw [hmo]
      by_cases hs : dir.i_mode &&& S_ISGID ≠ 0
      · rw [if_pos ⟨hs, or_ifdir_isdir mode hperm⟩, if_pos hs]
      · rw [if_neg (fun h => hs h.1), if_neg hs]
  · obtain ⟨i, hi, hg, hmo⟩ := sfs_mknod_new_inode k dir de (mode ||| S_IFREG) 0 hk hreglt
    refine ⟨i, hi, hg, ?_⟩
    rw [hmo, if_neg (fun h => or_ifreg_not_isdir mode hperm h.2)]
  · obtain ⟨i0, hi0, _, hmo, _, hgid, _⟩ :=
      samplefs_get_inode_some k (S_IFLNK ||| S_IRWXUGO) 0 (by decide) hk
    simp only [sfs_symlink, hi0, hsym, if_true]
    by_cases hs : dir.i_mode &&& S_ISGID ≠ 0
    · exact ⟨_, rfl, by simp [hs], by simp [hs, hmo]⟩
    · exact ⟨_, rfl, by simp [hs, hgid], by simp [hs, hmo]⟩

/-- Witness of `setgid_inheritance`: a setgid parent of gid 50, requested mode
`0755`, and a character device `020600`. -/
theorem setgid_inheritance_witness :
    (⟨true, 1000, 100, 77, 78, 0⟩ : kernel).new_inode_ok = true ∧
    (⟨true, 1000, 100, 77, 78, 0⟩ : kernel).page_symlink_error = 0 ∧
    0o755 < 2 ^ 16 ∧ 0o755 &&& S_IFMT = 0 ∧ 0o020600 < 2 ^ 16 ∧
    (∃ i, (sfs_mkdir ⟨true, 1000, 100, 77, 78, 0⟩
        { i_mode := 0o042755, i_uid := 0, i_gid := 50, i_nlink := 2, i_rdev := 0, i_size := 0,
          i_blocks := 0, i_atime := 1, i_mtime := 1, i_ctime := 1,
          i_op := inode_ops.sfs_dir_inode_ops, i_fop := file_ops.simple_dir_operations,
          sfs_aops := true, i_data := [] }
        ⟨cstr "d", none, 1⟩ 0o755).dentry.d_inode = some i ∧
      i.i_gid = 50 ∧ i.i_mode = 0o042755) :=
  ⟨rfl, rfl, by norm_num, by decide, by norm_num,
    (setgid_inheritance ⟨true, 1000, 100, 77, 78, 0⟩
      { i_mode := 0o042755, i_uid := 0, i_gid := 50, i_nlink := 2, i_rdev := 0, i_size := 0,
        i_blocks := 0, i_atime := 1, i_mtime := 1, i_ctime := 1,
        i_op := inode_ops.sfs_dir_inode_ops, i_fop := file_ops.simple_dir_operations,
        sfs_aops := true, i_data := [] }
      ⟨cstr "d", none, 1⟩ 0o755 0o020600 5 (cstr "t") false rfl rfl (by norm_num) (by decide)
      (by norm_num)).2.1⟩

/-! ## Unmount -/

/-- Claim C8 as stated fails.  `samplefs_put_super` leaves `s_fs_info` pointing
at the config it has just released, so a second call in sequence is not a
no-op: it releases the code table and the config a second time, and differs
from a call on a superblock whose config is absent. -/
theorem put_super_twice_releases_twice :
    samplefs_put_super (samplefs_put_super ⟨some (zeroed (some ascii_table)), []⟩)
      = ⟨some (zeroed (some ascii_table)),
          [release.unload_nls (some ascii_table), release.kfree (zeroed (some ascii_table)),
           release.unload_nls (some ascii_table), release.kfree (zeroed (some ascii_table))]⟩ ∧
    samplefs_put_super (samplefs_put_super ⟨some (zeroed (some ascii_table)), []⟩)
      ≠ samplefs_put_super ⟨some (zeroed (some ascii_table)), []⟩ ∧
    samplefs_put_super (samplefs_put_super ⟨some (zeroed (some ascii_table)), []⟩)
      ≠ samplefs_put_super
          ⟨none, (samplefs_put_super ⟨some (zeroed (some ascii_table)), []⟩).released⟩ := by
  refine ⟨rfl, ?_, ?_⟩
  · intro h
    have := congrArg (fun s => s.released.length) h
    simp [samplefs_put_super] at this
  · intro h
    have := congrArg (fun s => s.released.length) h
    simp [samplefs_put_super] at this

/-- Claim C8, amended.  Over the explicit superblock state: a call of
`samplefs_put_super` on a superblock whose config is absent changes nothing;
a call on a superblock whose config is present releases the code table and
the config, once each and in this order, and leaves the config slot as it
was. -/
theorem samplefs_put_super_spec (sfs_sb : samplefs_sb_info) (released : List release) :
    samplefs_put_super ⟨none, released⟩ = ⟨none, released⟩ ∧
    samplefs_put_super ⟨some sfs_sb, released⟩
      = ⟨some sfs_sb,
          released ++ [release.unload_nls sfs_sb.local_nls, release.kfree sfs_sb]⟩ :=
  ⟨rfl, rfl⟩

/-! ## Return value of the creation calls -/

/-- Claim C11 fails on the code.  The function `sfs_mknod` returns `-ENOSPC` on
every input, also when `samplefs_get_inode` returned a node and the dentry
was instantiated, and so do `sfs_create` and `sfs_mkdir`, which return its
result: none of them ever returns 0.  When no node could be allocated the
parent and the dentry are returned untouched (times, size and link count
unchanged).  With allocation succeeding, `sfs_mknod` for a regular file of
mode `0100644` attaches the new inode to the dentry, updates the parent's
times and size, and returns `-28`. -/
theorem sfs_mknod_never_returns_zero :
    (∀ (k : kernel) (dir : inode) (de : dentry) (mode dev : Nat),
      (sfs_mknod k dir de mode dev).error = -ENOSPC) ∧
    (∀ (k : kernel) (dir : inode) (de : dentry) (mode : Nat) (excl : Bool),
      (sfs_create k dir de mode excl).error = -ENOSPC) ∧
    (∀ (k : kernel) (dir : inode) (de : dentry) (mode : Nat),
      (sfs_mkdir k dir de mode).error = -ENOSPC) ∧
    (∀ (fsuid fsgid t1 t2 : Nat) (e : Int) (dir : inode) (de : dentry) (mode dev : Nat),
      sfs_mknod ⟨false, fsuid, fsgid, t1, t2, e⟩ dir de mode dev
        = { error := -ENOSPC, dir := dir, dentry := de }) ∧
    (sfs_mknod ⟨true, 1000, 100, 77, 78, 0⟩
        { i_mode := 0o040755, i_uid := 0, i_gid := 0, i_nlink := 2, i_rdev := 0, i_size := 0,
          i_blocks := 0, i_atime := 1, i_mtime := 1, i_ctime := 1,
          i_op := inode_ops.sfs_dir_inode_ops, i_fop := file_ops.simple_dir_operations,
          sfs_aops := true, i_data := [] }
        ⟨cstr "f", none, 1⟩ 0o100644 0
      = { error := -28,
          dir := { i_mode := 0o040755, i_uid := 0, i_gid := 0, i_nlink := 2, i_rdev := 0,
                   i_size := 32, i_blocks := 0, i_atime := 1, i_mtime := 78, i_ctime := 78,
                   i_op := inode_ops.sfs_dir_inode_ops, i_fop := file_ops.simple_dir_operations,
                   sfs_aops := true, i_data := [] },
          dentry := ⟨cstr "f",
            some { i_mode := 0o100644, i_uid := 1000, i_gid := 100, i_nlink := 1, i_rdev := 0,
                   i_size := 0, i_blocks := 0, i_atime := 77, i_mtime := 77, i_ctime := 77,
                   i_op := inode_ops.sfs_file_inode_ops,
                   i_fop := file_ops.sfs_file_operations, sfs_aops := true, i_data := [] },
            2⟩ }) := by
  have hmk : ∀ (k : kernel) (dir : inode) (de : dentry) (mode dev : Nat),
      (sfs_mknod k dir de mode dev).error = -ENOSPC := by
    intro k dir de mode dev
    unfold sfs_mknod
    split <;> rfl
  refine ⟨hmk, ?_, ?_, ?_, ?_⟩
  · intro k dir de mode excl
    exact hmk k dir de (mode ||| S_IFREG) 0
  · intro k dir de mode
    have hne : ¬ ((sfs_mknod k dir de (mode ||| S_IFDIR) 0).error = 0) := by
      rw [hmk]; decide
    simp only [sfs_mkdir, if_neg hne]
    exact hmk k dir de (mode ||| S_IFDIR) 0
  · intro fsuid fsgid t1 t2 e dir de mode dev
    simp [sfs_mknod, samplefs_get_inode, new_inode]
  · decide

end Samplefs
